import Mathlib

/-!
Verification of the pluggedin TypeScript client (VeriTeknik/pluggedin)
against its natural-language specification.

The embedding follows the source files:
  src/client.ts  (PluggedInClient: constructor, setToken, clearToken,
                  request, query, rawQuery, handleRequestError,
                  shouldRetryRequest, DEFAULT_RETRY_CONFIG)
  src/utils.ts   (buildUrl, validateParams, encodeInput, extractHeadings,
                  generateToc, processJsonOutput, processMarkdownOutput,
                  processOutputEncoding, isValidInputEncoding,
                  isValidOutputEncoding)
  src/errors.ts  (ApiError and subclasses)

JavaScript machine doubles used for delay arithmetic are modelled as
rationals; counters and HTTP status codes are naturals.  JavaScript
truthiness of a string (empty string is falsy) is modelled explicitly
wherever the source relies on it.  The underlying HTTP transport (axios)
is the opaque capability of the specification: one dispatch either
succeeds or yields a transport failure, and each attempt of one logical
call is an entry of an outcome sequence.
-/

namespace PluggedIn

/-! ### Retry policy (src/client.ts lines 35-41, constructor lines 250-252) -/

/-- A transport failure as the error classifier sees it (an AxiosError).
`response` is present when the server answered with an error status;
`requestMade` is true when the request went out but no response arrived
(error.request present); `message` is the message of the underlying
error object, used for pre-dispatch setup failures. -/
structure ErrResponse where
  status : Nat
  /-- The message field of the response body, if the body has one.
  JavaScript reads data.message; a body without the field gives undefined. -/
  bodyMessage : Option String
  /-- The retry-after response header, modelled as its parsed integer
  value in seconds; none when the header is absent or empty (falsy). -/
  retryAfterHeader : Option Nat
  deriving DecidableEq

structure TransportError where
  response : Option ErrResponse
  requestMade : Bool
  message : Option String
  deriving DecidableEq

/-- Mirror of the RetryConfig interface of src/types.ts with all fields
resolved (the client always works with a fully merged configuration). -/
structure RetryConfig where
  maxRetries : Nat
  initialDelay : ℚ
  backoffFactor : ℚ
  maxDelay : ℚ
  retryStatusCodes : List Nat
  retryCondition : Option (TransportError → Bool)

/-- Mirror of the optional RetryConfig a caller may pass in
PluggedInOptions: every field may be absent. -/
structure RetryConfigOpt where
  maxRetries : Option Nat := none
  initialDelay : Option ℚ := none
  backoffFactor : Option ℚ := none
  maxDelay : Option ℚ := none
  retryStatusCodes : Option (List Nat) := none
  retryCondition : Option (TransportError → Bool) := none

/-- DEFAULT_RETRY_CONFIG of src/client.ts lines 35-41. -/
def DEFAULT_RETRY_CONFIG : RetryConfig :=
  { maxRetries := 3
    initialDelay := 1000
    backoffFactor := 2
    maxDelay := 30000
    retryStatusCodes := [408, 429, 500, 502, 503, 504]
    retryCondition := none }

/-- The constructor merge (src/client.ts lines 250-252):
`options.retryConfig ? { ...DEFAULT_RETRY_CONFIG, ...options.retryConfig } :
DEFAULT_RETRY_CONFIG`.  A spread of an object overrides exactly the
properties the object carries; an absent property keeps the default. -/
def effectiveRetryConfig (opt : Option RetryConfigOpt) : RetryConfig :=
  match opt with
  | none => DEFAULT_RETRY_CONFIG
  | some p =>
    { maxRetries := p.maxRetries.getD DEFAULT_RETRY_CONFIG.maxRetries
      initialDelay := p.initialDelay.getD DEFAULT_RETRY_CONFIG.initialDelay
      backoffFactor := p.backoffFactor.getD DEFAULT_RETRY_CONFIG.backoffFactor
      maxDelay := p.maxDelay.getD DEFAULT_RETRY_CONFIG.maxDelay
      retryStatusCodes := p.retryStatusCodes.getD DEFAULT_RETRY_CONFIG.retryStatusCodes
      retryCondition :=
        match p.retryCondition with
        | some c => some c
        | none => DEFAULT_RETRY_CONFIG.retryCondition }

/-! ### Backoff delay (src/client.ts lines 592-605) -/

/-- Exponential backoff: `Math.min(initialDelay * backoffFactor ^ retryAttempt,
maxDelay)` (src/client.ts lines 593-596). -/
def backoffDelay (cfg : RetryConfig) (retryAttempt : Nat) : ℚ :=
  min (cfg.initialDelay * cfg.backoffFactor ^ retryAttempt) cfg.maxDelay

/-- The server wait hint in milliseconds: `parseInt(headers[...], 10) * 1000`
when a retry-after header is present, else 0 (src/client.ts lines 599-602). -/
def retryAfterMs (hint : Option Nat) : ℚ :=
  match hint with
  | some s => (s : ℚ) * 1000
  | none => 0

/-- The wait `Math.max(delay, retryAfter)` (src/client.ts line 605)
inserted before a retry. -/
def waitTime (cfg : RetryConfig) (retryAttempt : Nat) (hint : Option Nat) : ℚ :=
  max (backoffDelay cfg retryAttempt) (retryAfterMs hint)

/-- C2, step 1: the backoff is non-decreasing in the attempt number when
the factor is at least 1 and the initial delay is a (non-negative)
duration. -/
theorem backoffDelay_mono (cfg : RetryConfig)
    (hfac : 1 ≤ cfg.backoffFactor) (hinit : 0 ≤ cfg.initialDelay)
    (n : Nat) : backoffDelay cfg n ≤ backoffDelay cfg (n + 1) := by
  unfold backoffDelay
  have hpow : cfg.backoffFactor ^ n ≤ cfg.backoffFactor ^ (n + 1) :=
    pow_le_pow_right₀ hfac (Nat.le_succ n)
  exact min_le_min (mul_le_mul_of_nonneg_left hpow hinit) le_rfl

/-- C2: for every retry configuration whose backoff factor is at least 1
(and whose initial delay is a duration, hence non-negative), the wait
before a retry of attempt n (1) equals the exponential backoff
min(initialDelay * backoffFactor ^ n, maxDelay) raised to the
server-supplied retry-after hint converted to milliseconds when that is
larger, (2) never exceeds the maxDelay cap except to honour the hint,
(3) is monotonically non-decreasing in n, and (4) is at least the hint
whenever one is supplied. -/
theorem waitTime_formula_mono_hint (cfg : RetryConfig)
    (hfac : 1 ≤ cfg.backoffFactor) (hinit : 0 ≤ cfg.initialDelay) :
    (∀ n hint, waitTime cfg n hint =
        max (min (cfg.initialDelay * cfg.backoffFactor ^ n) cfg.maxDelay)
          (retryAfterMs hint)) ∧
    (∀ n, backoffDelay cfg n ≤ cfg.maxDelay) ∧
    (∀ n hint, waitTime cfg n hint ≤ waitTime cfg (n + 1) hint) ∧
    (∀ (n : Nat) (s : Nat), (s : ℚ) * 1000 ≤ waitTime cfg n (some s)) := by
  refine ⟨fun n hint => rfl, fun n => min_le_right _ _, ?_, ?_⟩
  · intro n hint
    exact max_le_max (backoffDelay_mono cfg hfac hinit n) le_rfl
  · intro n s
    exact le_max_right _ _

/-- Witness for C2 at the default configuration: the hypotheses hold for
DEFAULT_RETRY_CONFIG, and a retry-after hint of 2 seconds forces a wait
of at least 2000 ms on the first retry. -/
theorem waitTime_formula_mono_hint_witness :
    (1 ≤ DEFAULT_RETRY_CONFIG.backoffFactor ∧
      0 ≤ DEFAULT_RETRY_CONFIG.initialDelay) ∧
    ((2 : ℚ) * 1000 ≤ waitTime DEFAULT_RETRY_CONFIG 0 (some 2)) :=
  ⟨⟨by norm_num [DEFAULT_RETRY_CONFIG], by norm_num [DEFAULT_RETRY_CONFIG]⟩,
    (waitTime_formula_mono_hint DEFAULT_RETRY_CONFIG
      (by norm_num [DEFAULT_RETRY_CONFIG])
      (by norm_num [DEFAULT_RETRY_CONFIG])).2.2.2 0 2⟩

/-- C10: a client constructed without a retryConfig option uses the
default retry policy of maxRetries 3, initialDelay 1000 ms,
backoffFactor 2, maxDelay 30000 ms and retryable status codes
408, 429, 500, 502, 503, 504; a partial retryConfig overrides exactly
the fields it carries, and every omitted field keeps its default. -/
theorem effectiveRetryConfig_defaults_and_merge :
    (effectiveRetryConfig none = DEFAULT_RETRY_CONFIG ∧
      DEFAULT_RETRY_CONFIG.maxRetries = 3 ∧
      DEFAULT_RETRY_CONFIG.initialDelay = 1000 ∧
      DEFAULT_RETRY_CONFIG.backoffFactor = 2 ∧
      DEFAULT_RETRY_CONFIG.maxDelay = 30000 ∧
      DEFAULT_RETRY_CONFIG.retryStatusCodes = [408, 429, 500, 502, 503, 504]) ∧
    (∀ p : RetryConfigOpt,
      ((p.maxRetries = none →
          (effectiveRetryConfig (some p)).maxRetries = 3) ∧
        (∀ v, p.maxRetries = some v →
          (effectiveRetryConfig (some p)).maxRetries = v)) ∧
      ((p.initialDelay = none →
          (effectiveRetryConfig (some p)).initialDelay = 1000) ∧
        (∀ v, p.initialDelay = some v →
          (effectiveRetryConfig (some p)).initialDelay = v)) ∧
      ((p.backoffFactor = none →
          (effectiveRetryConfig (some p)).backoffFactor = 2) ∧
        (∀ v, p.backoffFactor = some v →
          (effectiveRetryConfig (some p)).backoffFactor = v)) ∧
      ((p.maxDelay = none →
          (effectiveRetryConfig (some p)).maxDelay = 30000) ∧
        (∀ v, p.maxDelay = some v →
          (effectiveRetryConfig (some p)).maxDelay = v)) ∧
      ((p.retryStatusCodes = none →
          (effectiveRetryConfig (some p)).retryStatusCodes =
            [408, 429, 500, 502, 503, 504]) ∧
        (∀ v, p.retryStatusCodes = some v →
          (effectiveRetryConfig (some p)).retryStatusCodes = v))) := by
  constructor
  · exact ⟨rfl, rfl, rfl, rfl, rfl, rfl⟩
  · intro p
    refine ⟨⟨?_, ?_⟩, ⟨?_, ?_⟩, ⟨?_, ?_⟩, ⟨?_, ?_⟩, ⟨?_, ?_⟩⟩ <;>
      simp only [effectiveRetryConfig, DEFAULT_RETRY_CONFIG] <;>
      first
        | (intro h; simp [h])
        | (intro v h; simp [h])

/-- Witness for C10: a partial configuration carrying only maxRetries 5
overrides that one field and keeps the default initialDelay of 1000 ms. -/
theorem effectiveRetryConfig_defaults_and_merge_witness :
    (effectiveRetryConfig (some { maxRetries := some 5 })).maxRetries = 5 ∧
    (effectiveRetryConfig (some { maxRetries := some 5 })).initialDelay = 1000 :=
  ⟨(effectiveRetryConfig_defaults_and_merge.2 { maxRetries := some 5 }).1.2 5 rfl,
    (effectiveRetryConfig_defaults_and_merge.2 { maxRetries := some 5 }).2.1.1 rfl⟩

/-! ### Error classification (src/client.ts lines 587-698) -/

inductive ErrorKind where
  | api
  | authentication
  | validation
  | network
  | rateLimit
  | server
  deriving DecidableEq

/-- The retry block attached to the error data:
`retry: { attempt, maxAttempts }`, plus the optional
`retry.after` set only in the 429 branch (src/client.ts line 651). -/
structure RetryMeta where
  attempt : Nat
  maxAttempts : Nat
  after : Option Nat
  deriving DecidableEq

/-- A typed error as thrown by src/errors.ts classes via the handler in
src/client.ts.  Errors produced by the classifier carry retry metadata;
errors thrown directly by validation or the token gate carry none. -/
structure TypedError where
  kind : ErrorKind
  message : String
  statusCode : Nat
  retryMeta : Option RetryMeta
  deriving DecidableEq

/-- JavaScript `m || d` on an optional string: the default is used when
the field is absent or the empty string (falsy). -/
def orDefault (m : Option String) (d : String) : String :=
  match m with
  | some s => if s = "" then d else s
  | none => d

/-- The terminal branch of handleRequestError (src/client.ts lines
623-698): classify a transport failure once retries are exhausted or the
failure is not retryable.  The status dispatch is 401, then 400, then
429, then >= 500, then the generic ApiError; without a response the
error is a NetworkError when the request went out and an ApiError(0)
for a setup failure. -/
def classifyError (cfg : RetryConfig) (error : TransportError)
    (retryAttempt : Nat) : TypedError :=
  match error.response with
  | some r =>
    if r.status = 401 then
      { kind := .authentication
        message := orDefault r.bodyMessage
          "Authentication failed. Please check your API token."
        statusCode := r.status
        retryMeta := some ⟨retryAttempt, cfg.maxRetries, none⟩ }
    else if r.status = 400 then
      { kind := .validation
        message := orDefault r.bodyMessage "Invalid request parameters"
        statusCode := r.status
        retryMeta := some ⟨retryAttempt, cfg.maxRetries, none⟩ }
    else if r.status = 429 then
      { kind := .rateLimit
        message := orDefault r.bodyMessage
          "Rate limit exceeded. Please try again later."
        statusCode := r.status
        retryMeta := some ⟨retryAttempt, cfg.maxRetries, r.retryAfterHeader⟩ }
    else if 500 ≤ r.status then
      { kind := .server
        message := orDefault r.bodyMessage
          "Server error occurred. Please try again later."
        statusCode := r.status
        retryMeta := some ⟨retryAttempt, cfg.maxRetries, none⟩ }
    else
      { kind := .api
        message := orDefault r.bodyMessage
          ("API error with status code: " ++ toString r.status)
        statusCode := r.status
        retryMeta := some ⟨retryAttempt, cfg.maxRetries, none⟩ }
  | none =>
    if error.requestMade then
      { kind := .network
        message :=
          "No response received from the server. Please check your network connection."
        statusCode := 0
        retryMeta := some ⟨retryAttempt, cfg.maxRetries, none⟩ }
    else
      { kind := .api
        message := orDefault error.message
          "An error occurred while setting up the request"
        statusCode := 0
        retryMeta := some ⟨retryAttempt, cfg.maxRetries, none⟩ }

/-- shouldRetryRequest (src/client.ts lines 706-728): no retry at or past
the maxRetries cap; retry on a no-response failure, on a (truthy)
status in the retryable list, or when a configured custom condition
accepts the error. -/
def shouldRetryRequest (cfg : RetryConfig) (error : TransportError)
    (retryAttempt : Nat) : Bool :=
  if cfg.maxRetries ≤ retryAttempt then false
  else if error.response.isNone then true
  else if (match error.response with
           | some r => decide (r.status ≠ 0) && cfg.retryStatusCodes.contains r.status
           | none => false) then true
  else
    match cfg.retryCondition with
    | some cond => cond error
    | none => false

/-- The cap-independent part of shouldRetryRequest: a failure is
retryable when no response arrived, the status is (truthy and) in the
retryable list, or the custom condition accepts it. -/
def isRetryableFailure (cfg : RetryConfig) (error : TransportError) : Bool :=
  error.response.isNone ||
  (match error.response with
   | some r => decide (r.status ≠ 0) && cfg.retryStatusCodes.contains r.status
   | none => false) ||
  (match cfg.retryCondition with
   | some cond => cond error
   | none => false)

theorem shouldRetryRequest_eq (cfg : RetryConfig) (error : TransportError)
    (retryAttempt : Nat) :
    shouldRetryRequest cfg error retryAttempt =
      (decide (retryAttempt < cfg.maxRetries) && isRetryableFailure cfg error) := by
  unfold shouldRetryRequest isRetryableFailure
  by_cases hcap : cfg.maxRetries ≤ retryAttempt
  · simp [hcap, Nat.not_lt.mpr hcap]
  · have hlt : retryAttempt < cfg.maxRetries := Nat.lt_of_not_le hcap
    simp only [if_neg hcap, hlt, decide_True, Bool.true_and]
    by_cases hresp : error.response.isNone
    · simp [hresp]
    · simp only [hresp, if_false, Bool.false_or]
      by_cases hstat : (match error.response with
        | some r => decide (r.status ≠ 0) && cfg.retryStatusCodes.contains r.status
        | none => false) = true
      · simp [hstat]
      · simp only [Bool.not_eq_true] at hstat
        simp [hstat]

theorem shouldRetryRequest_lt (cfg : RetryConfig) (error : TransportError)
    (retryAttempt : Nat) (h : shouldRetryRequest cfg error retryAttempt = true) :
    retryAttempt < cfg.maxRetries := by
  rw [shouldRetryRequest_eq] at h
  exact of_decide_eq_true (Bool.and_elim_left h)

/-- A pure transport-level failure: the request went out, no response came
back (ECONNREFUSED and friends). -/
def netFailure : TransportError :=
  { response := none, requestMade := true, message := some "Network Error" }

/-- A thrown TypedError seen again through the AxiosError lens: the
catch of src/client.ts line 616 passes whatever the awaited retry
rejected with back into handleRequestError as an AxiosError, but a
classified ApiError instance has neither a response nor a request
property, only its message. -/
def typedAsTransport (e : TypedError) : TransportError :=
  { response := none, requestMade := false, message := some e.message }

mutual
/-- One dispatch of axiosInstance.request and everything axios runs on
its outcome.  The response interceptor installed at src/client.ts lines
265-268 processes every rejection of the instance — the first dispatch
of request() and equally the retry dispatch issued inside
handleRequestError at line 614 — by calling handleRequestError(error)
with its retryAttempt parameter defaulted to 0.  `outcomes i` is the
transport result of dispatch i (none a success); `k` the index of the
dispatch to perform; `fuel` only bounds the observed execution (the
program has no such bound); the pair returned is the settled outcome
(none while still running when the fuel ends) and the number of
dispatches performed. -/
def dispatchRun (cfg : RetryConfig) (outcomes : Nat → Option TransportError) :
    Nat → Nat → Option (Except TypedError Unit) × Nat
  | 0, _ => (none, 0)
  | fuel + 1, k =>
    match outcomes k with
    | none => (some (.ok ()), 1)
    | some e =>
      let p := interceptRun cfg outcomes fuel e 0 (k + 1)
      (p.1, p.2 + 1)
/-- handleRequestError (src/client.ts lines 587-620) as the interceptor
runs it: when shouldRetryRequest accepts, the awaited retry dispatch is
itself interceptor-processed (a fresh handler at attempt 0), and only
what that nested chain settles on reaches the catch of line 616, which
re-enters the handler at retryAttempt + 1 with the caught (already
classified) error; when shouldRetryRequest declines, the failure at
hand is classified and thrown. -/
def interceptRun (cfg : RetryConfig) (outcomes : Nat → Option TransportError) :
    Nat → TransportError → Nat → Nat → Option (Except TypedError Unit) × Nat
  | 0, _, _, _ => (none, 0)
  | fuel + 1, e, n, k =>
    if shouldRetryRequest cfg e n then
      match dispatchRun cfg outcomes fuel k with
      | (none, c) => (none, c)
      | (some (.ok u), c) => (some (.ok u), c)
      | (some (.error e2), c) =>
        let q := interceptRun cfg outcomes fuel (typedAsTransport e2) (n + 1) (k + c)
        (q.1, c + q.2)
    else
      (some (.error (classifyError cfg e n)), 0)
end

/-- On a run of persistently retryable failures the interceptor
re-entry keeps the attempt counter at 0 at every decision point, so the
process never settles and performs one further dispatch for every two
units of fuel. -/
theorem dispatchRun_persistent (cfg : RetryConfig) (errs : Nat → TransportError)
    (hmax : 1 ≤ cfg.maxRetries)
    (hall : ∀ i, isRetryableFailure cfg (errs i) = true) :
    ∀ fuel,
      (∀ k, dispatchRun cfg (fun i => some (errs i)) fuel k = (none, (fuel + 1) / 2)) ∧
      (∀ i k, interceptRun cfg (fun i2 => some (errs i2)) fuel (errs i) 0 k =
        (none, fuel / 2)) := by
  intro fuel
  induction fuel with
  | zero => exact ⟨fun k => rfl, fun i k => rfl⟩
  | succ f ih =>
    constructor
    · intro k
      rw [dispatchRun]
      dsimp only
      rw [(ih.2 k (k + 1))]
      have harith : f / 2 + 1 = (f + 1 + 1) / 2 := by omega
      rw [harith]
    · intro i k
      have hyes : shouldRetryRequest cfg (errs i) 0 = true := by
        rw [shouldRetryRequest_eq]
        have h0 : 0 < cfg.maxRetries := hmax
        simp [hall i, h0]
      rw [interceptRun, if_pos hyes, (ih.1 k)]

/-- C1 (code bug): with maxRetries = R at least 1 and every dispatch
failing with a retryable transport failure, the client does not perform
R + 1 attempts and does not reject with the classified error carrying
retryMeta.attempt = R: every retried dispatch rejects into the response
interceptor, which re-enters handleRequestError with retryAttempt
defaulted to 0, so the retry decision is always taken at attempt 0 and
always retries.  Whatever the fuel, the run settles on no outcome at
all, and the number of dispatches grows beyond every bound — in
particular beyond the R + 1 the claim, the specification and the give
up after max retries test of the repository all require. -/
theorem retry_interceptor_reentry_unbounded (cfg : RetryConfig)
    (errs : Nat → TransportError) (hmax : 1 ≤ cfg.maxRetries)
    (hall : ∀ i, isRetryableFailure cfg (errs i) = true) :
    (∀ fuel k, dispatchRun cfg (fun i => some (errs i)) fuel k =
        (none, (fuel + 1) / 2)) ∧
    (∀ bound, ∃ fuel, ∀ k,
        (dispatchRun cfg (fun i => some (errs i)) fuel k).1 = none ∧
        bound < (dispatchRun cfg (fun i => some (errs i)) fuel k).2) := by
  have key := dispatchRun_persistent cfg errs hmax hall
  refine ⟨fun fuel k => (key fuel).1 k, ?_⟩
  intro bound
  refine ⟨2 * bound + 2, fun k => ?_⟩
  rw [(key (2 * bound + 2)).1 k]
  exact ⟨rfl, by omega⟩

/-- Witness for C1: at the default policy (maxRetries 3) under
persistent no-response failures, ten units of fuel already see five
dispatches — more than the four the claim requires — and no settled
outcome. -/
theorem retry_interceptor_reentry_unbounded_witness :
    (1 ≤ DEFAULT_RETRY_CONFIG.maxRetries ∧
      isRetryableFailure DEFAULT_RETRY_CONFIG netFailure = true) ∧
    dispatchRun DEFAULT_RETRY_CONFIG (fun _ => some netFailure) 10 0 = (none, 5) ∧
    DEFAULT_RETRY_CONFIG.maxRetries + 1 < 5 :=
  ⟨⟨by decide, by decide⟩,
    (retry_interceptor_reentry_unbounded DEFAULT_RETRY_CONFIG (fun _ => netFailure)
      (by decide) (fun _ => by rfl)).1 10 0,
    by decide⟩

/-- Every error the classifier produces records the attempt number it
was classified at and the configured maximum. -/
theorem classifyError_attempt (cfg : RetryConfig) (error : TransportError)
    (retryAttempt : Nat) :
    (classifyError cfg error retryAttempt).retryMeta.map (fun m => m.attempt) =
        some retryAttempt ∧
    (classifyError cfg error retryAttempt).retryMeta.map (fun m => m.maxAttempts) =
        some cfg.maxRetries := by
  unfold classifyError
  rcases error.response with _ | r <;> dsimp only <;> split_ifs <;> simp

/-- C3 (amended): classification of a failed transport outcome.  Status
401 gives Authentication, 400 Validation, 429 RateLimit carrying the
parsed retry-after header value in raw seconds as the after hint, any
status at least 500 Server, any other response status the generic Api
error with the original status; no response at all gives Network with
status 0, and a pre-dispatch setup failure gives Api with status 0 and
the setup error message.  Every error carries retry metadata with the
attempt number and the configured maximum, and response-classified
errors use the response body message when present, else the kind
default. -/
theorem classifyError_spec (cfg : RetryConfig) (e : TransportError) (n : Nat) :
    ((classifyError cfg e n).retryMeta.map (fun m => m.attempt) = some n) ∧
    ((classifyError cfg e n).retryMeta.map (fun m => m.maxAttempts) =
      some cfg.maxRetries) ∧
    (∀ r, e.response = some r →
      ((r.status = 401 → classifyError cfg e n =
          ⟨.authentication,
            orDefault r.bodyMessage
              "Authentication failed. Please check your API token.",
            401, some ⟨n, cfg.maxRetries, none⟩⟩) ∧
       (r.status = 400 → classifyError cfg e n =
          ⟨.validation, orDefault r.bodyMessage "Invalid request parameters",
            400, some ⟨n, cfg.maxRetries, none⟩⟩) ∧
       (r.status = 429 → classifyError cfg e n =
          ⟨.rateLimit,
            orDefault r.bodyMessage "Rate limit exceeded. Please try again later.",
            429, some ⟨n, cfg.maxRetries, r.retryAfterHeader⟩⟩) ∧
       (500 ≤ r.status → classifyError cfg e n =
          ⟨.server,
            orDefault r.bodyMessage "Server error occurred. Please try again later.",
            r.status, some ⟨n, cfg.maxRetries, none⟩⟩) ∧
       (r.status ≠ 401 → r.status ≠ 400 → r.status ≠ 429 → r.status < 500 →
          classifyError cfg e n =
            ⟨.api,
              orDefault r.bodyMessage
                ("API error with status code: " ++ toString r.status),
              r.status, some ⟨n, cfg.maxRetries, none⟩⟩))) ∧
    (e.response = none → e.requestMade = true → classifyError cfg e n =
      ⟨.network,
        "No response received from the server. Please check your network connection.",
        0, some ⟨n, cfg.maxRetries, none⟩⟩) ∧
    (e.response = none → e.requestMade = false → classifyError cfg e n =
      ⟨.api, orDefault e.message "An error occurred while setting up the request",
        0, some ⟨n, cfg.maxRetries, none⟩⟩) := by
  refine ⟨(classifyError_attempt cfg e n).1, (classifyError_attempt cfg e n).2,
    ?_, ?_, ?_⟩
  · intro r hr
    refine ⟨?_, ?_, ?_, ?_, ?_⟩
    · intro h
      simp [classifyError, hr, h]
    · intro h
      simp [classifyError, hr, h]
    · intro h
      simp [classifyError, hr, h]
    · intro h
      unfold classifyError
      rw [hr]
      dsimp only
      rw [if_neg (by omega), if_neg (by omega), if_neg (by omega), if_pos h]
    · intro h1 h2 h3 h4
      unfold classifyError
      rw [hr]
      dsimp only
      rw [if_neg h1, if_neg h2, if_neg h3, if_neg (by omega)]
  · intro hr hm
    simp [classifyError, hr, hm]
  · intro hr hm
    simp [classifyError, hr, hm]

/-- A 429 response carrying a retry-after header that parses to 2
seconds. -/
def resp429 : ErrResponse :=
  { status := 429, bodyMessage := some "Too many requests", retryAfterHeader := some 2 }

def err429 : TransportError :=
  { response := some resp429, requestMade := true, message := none }

/-- Counterexample to C3 as stated: classifying a 429 response whose
retry-after header parses to 2 (seconds) attaches the raw value 2 as
the hint, not the 2000 milliseconds the claim requires.  The line
errorData.retry.after = parseInt(retryAfter, 10) of src/client.ts has no
factor of 1000; the seconds-to-milliseconds conversion happens only in
the backoff wait computation. -/
theorem rateLimit_hint_is_raw_seconds :
    (classifyError DEFAULT_RETRY_CONFIG err429 0).retryMeta =
      some ⟨0, 3, some 2⟩ ∧
    (classifyError DEFAULT_RETRY_CONFIG err429 0).retryMeta ≠
      some ⟨0, 3, some (2 * 1000)⟩ := by
  constructor
  · rfl
  · decide

/-- Witness for C3: the 429 case of the amended classification at a
concrete error. -/
theorem classifyError_spec_witness :
    err429.response = some resp429 ∧ resp429.status = 429 ∧
    classifyError DEFAULT_RETRY_CONFIG err429 1 =
      ⟨.rateLimit, "Too many requests", 429, some ⟨1, 3, some 2⟩⟩ :=
  ⟨rfl, rfl,
    ((classifyError_spec DEFAULT_RETRY_CONFIG err429 1).2.2.1 resp429 rfl).2.2.1 rfl⟩

/-! ### JSON values and the host JSON primitives

The json input encoding and json output decoding of src/utils.ts call
the ECMAScript builtins JSON.stringify and JSON.parse.  The builtins are
host primitives, modelled here over an inductive of JSON-serializable
values: numbers are integers (float-specific behaviour is out of
scope), strings escape the quote, backslash and the common control
characters, and no insignificant whitespace is produced or consumed
(JSON.stringify emits none). -/

mutual
inductive Json where
  | null : Json
  | bool (b : Bool) : Json
  | num (n : Int) : Json
  | str (s : String) : Json
  | arr (elems : JsonList) : Json
  | obj (members : JsonMembers) : Json
inductive JsonList where
  | nil : JsonList
  | cons (head : Json) (tail : JsonList) : JsonList
inductive JsonMembers where
  | nil : JsonMembers
  | cons (key : String) (value : Json) (tail : JsonMembers) : JsonMembers
end

/-- String-literal escaping of JSON.stringify for the characters the
model covers. -/
def escChar (c : Char) : List Char :=
  if c = '"' ∨ c = '\\' then ['\\', c]
  else if c = '\n' then ['\\', 'n']
  else if c = '\t' then ['\\', 't']
  else if c = '\r' then ['\\', 'r']
  else [c]

def escChars : List Char → List Char
  | [] => []
  | c :: cs => escChar c ++ escChars cs

/-- A JSON string literal: opening quote, escaped content, closing
quote. -/
def strChars (s : String) : List Char :=
  '"' :: (escChars s.data ++ ['"'])

def digitChar (d : Nat) : Char := Char.ofNat (48 + d)

/-- Least-significant-first decimal digits by repeated division; the
fuel argument makes the recursion structural so that terms reduce. -/
def decDigitsCore : Nat → Nat → List Nat
  | 0, _ => []
  | fuel + 1, n => if n = 0 then [] else n % 10 :: decDigitsCore fuel (n / 10)

/-- The most-significant-first decimal digit list of a natural number;
zero prints as the single digit 0 as in ECMAScript. -/
def decDigits (n : Nat) : List Nat :=
  if n = 0 then [0] else (decDigitsCore n n).reverse

theorem decDigitsCore_eq_digits (fuel : Nat) :
    ∀ n, n ≤ fuel → decDigitsCore fuel n = Nat.digits 10 n := by
  induction fuel with
  | zero =>
    intro n hn
    interval_cases n
    simp [decDigitsCore]
  | succ f ih =>
    intro n hn
    by_cases h0 : n = 0
    · simp [decDigitsCore, h0]
    · rw [decDigitsCore, if_neg h0, ih (n / 10) (by omega),
        Nat.digits_def' (by norm_num : (1:Nat) < 10) (Nat.pos_of_ne_zero h0)]

def natToChars (n : Nat) : List Char := (decDigits n).map digitChar

def intToChars (n : Int) : List Char :=
  if n < 0 then '-' :: natToChars n.natAbs else natToChars n.toNat

mutual
/-- JSON.stringify as a character list. -/
def jsonChars : Json → List Char
  | .null => "null".data
  | .bool b => if b then "true".data else "false".data
  | .num n => intToChars n
  | .str s => strChars s
  | .arr es => '[' :: elemsChars es ++ [']']
  | .obj ms => '{' :: membersChars ms ++ ['}']
def elemsChars : JsonList → List Char
  | .nil => []
  | .cons x .nil => jsonChars x
  | .cons x (.cons y t) => jsonChars x ++ ',' :: elemsChars (.cons y t)
def membersChars : JsonMembers → List Char
  | .nil => []
  | .cons k v .nil => strChars k ++ ':' :: jsonChars v
  | .cons k v (.cons k2 v2 t) =>
      strChars k ++ ':' :: jsonChars v ++ ',' :: membersChars (.cons k2 v2 t)
end

def stringifyJson (j : Json) : String := String.mk (jsonChars j)

/-- Unescaping for the escape sequences the stringifier emits. -/
def unescChar (c : Char) : Char :=
  if c = 'n' then '\n'
  else if c = 't' then '\t'
  else if c = 'r' then '\r'
  else c

/-- Parse the body of a JSON string literal after its opening quote, up
to and including the closing quote. -/
def parseStringBody : List Char → Option (List Char × List Char)
  | [] => none
  | c :: rest =>
    if c = '"' then some ([], rest)
    else if c = '\\' then
      match rest with
      | [] => none
      | e :: rest2 =>
        match parseStringBody rest2 with
        | some (s, r) => some (unescChar e :: s, r)
        | none => none
    else
      match parseStringBody rest with
      | some (s, r) => some (c :: s, r)
      | none => none

def digitVal (c : Char) : Nat := c.toNat - 48

/-- Consume a maximal run of decimal digits, folding them onto an
accumulator. -/
def parseDigitsAux (acc : Nat) : List Char → Nat × List Char
  | [] => (acc, [])
  | c :: cs =>
    if c.isDigit then parseDigitsAux (10 * acc + digitVal c) cs
    else (acc, c :: cs)

/-- The literal branches of the value parser: what follows the
dispatching first character. -/
def parseNullTail : List Char → Option (Json × List Char)
  | 'u' :: 'l' :: 'l' :: r => some (.null, r)
  | _ => none

def parseTrueTail : List Char → Option (Json × List Char)
  | 'r' :: 'u' :: 'e' :: r => some (.bool true, r)
  | _ => none

def parseFalseTail : List Char → Option (Json × List Char)
  | 'a' :: 'l' :: 's' :: 'e' :: r => some (.bool false, r)
  | _ => none

def parseStrTail (rest : List Char) : Option (Json × List Char) :=
  match parseStringBody rest with
  | some (s, r) => some (.str (String.mk s), r)
  | none => none

def parseNegTail : List Char → Option (Json × List Char)
  | [] => none
  | c2 :: rest2 =>
    if c2.isDigit then
      some (.num (-((parseDigitsAux (digitVal c2) rest2).1 : Int)),
        (parseDigitsAux (digitVal c2) rest2).2)
    else none

def parseNumTail (c : Char) (rest : List Char) : Option (Json × List Char) :=
  some (.num ((parseDigitsAux (digitVal c) rest).1 : Int),
    (parseDigitsAux (digitVal c) rest).2)

/-- The array branch: an immediate closing bracket gives the empty
array, anything else is handed to the element parser. -/
def parseArrTail (pe : List Char → Option (JsonList × List Char)) :
    List Char → Option (Json × List Char)
  | [] => none
  | r0 :: r1 =>
    if r0 = ']' then some (.arr .nil, r1)
    else
      match pe (r0 :: r1) with
      | some (es, r) => some (.arr es, r)
      | none => none

def parseObjTail (pm : List Char → Option (JsonMembers × List Char)) :
    List Char → Option (Json × List Char)
  | [] => none
  | r0 :: r1 =>
    if r0 = '}' then some (.obj .nil, r1)
    else
      match pm (r0 :: r1) with
      | some (ms, r) => some (.obj ms, r)
      | none => none

mutual
/-- Recursive-descent JSON value parser; the fuel only needs to exceed
the length of the text being parsed. -/
def parseJsonVal : Nat → List Char → Option (Json × List Char)
  | 0, _ => none
  | _ + 1, [] => none
  | fuel + 1, c :: rest =>
    if c = 'n' then parseNullTail rest
    else if c = 't' then parseTrueTail rest
    else if c = 'f' then parseFalseTail rest
    else if c = '"' then parseStrTail rest
    else if c = '[' then parseArrTail (parseElems fuel) rest
    else if c = '{' then parseObjTail (parseMembers fuel) rest
    else if c = '-' then parseNegTail rest
    else if c.isDigit then parseNumTail c rest
    else none
/-- Parse a non-empty comma-separated element list and its closing
bracket. -/
def parseElems : Nat → List Char → Option (JsonList × List Char)
  | 0, _ => none
  | fuel + 1, cs =>
    match parseJsonVal fuel cs with
    | none => none
    | some (v, r) =>
      match r with
      | ',' :: r2 =>
        match parseElems fuel r2 with
        | some (vs, r3) => some (.cons v vs, r3)
        | none => none
      | ']' :: r2 => some (.cons v .nil, r2)
      | _ => none
/-- Parse a non-empty member list and its closing brace. -/
def parseMembers : Nat → List Char → Option (JsonMembers × List Char)
  | 0, _ => none
  | fuel + 1, cs =>
    match cs with
    | '"' :: r0 =>
      match parseStringBody r0 with
      | none => none
      | some (k, r1) =>
        match r1 with
        | ':' :: r2 =>
          match parseJsonVal fuel r2 with
          | none => none
          | some (v, r3) =>
            match r3 with
            | ',' :: r4 =>
              match parseMembers fuel r4 with
              | some (ms, r5) => some (.cons (String.mk k) v ms, r5)
              | none => none
            | '}' :: r4 => some (.cons (String.mk k) v .nil, r4)
            | _ => none
        | _ => none
    | _ => none
end

/-- One-step unfolding of the value parser at positive fuel on a
non-empty input. -/
theorem parseJsonVal_step (fuel : Nat) (c : Char) (rest : List Char) :
    parseJsonVal (fuel + 1) (c :: rest) =
      if c = 'n' then parseNullTail rest
      else if c = 't' then parseTrueTail rest
      else if c = 'f' then parseFalseTail rest
      else if c = '"' then parseStrTail rest
      else if c = '[' then parseArrTail (parseElems fuel) rest
      else if c = '{' then parseObjTail (parseMembers fuel) rest
      else if c = '-' then parseNegTail rest
      else if c.isDigit then parseNumTail c rest
      else none := by
  rw [parseJsonVal]

/-- One-step unfolding of the element parser at positive fuel. -/
theorem parseElems_step (fuel : Nat) (cs : List Char) :
    parseElems (fuel + 1) cs =
      match parseJsonVal fuel cs with
      | none => none
      | some (v, r) =>
        match r with
        | ',' :: r2 =>
          match parseElems fuel r2 with
          | some (vs, r3) => some (.cons v vs, r3)
          | none => none
        | ']' :: r2 => some (.cons v .nil, r2)
        | _ => none := by
  rw [parseElems]

/-- JSON.parse: the whole text must be consumed. -/
def parseJson (s : String) : Option Json :=
  match parseJsonVal (s.data.length + 1) s.data with
  | some (j, []) => some j
  | _ => none

/-! ### Round-trip lemmas for the JSON model -/

def startsWithDigit : List Char → Bool
  | [] => false
  | c :: _ => c.isDigit

theorem digitChar_isDigit {d : Nat} (h : d < 10) :
    (digitChar d).isDigit = true := by
  interval_cases d <;> decide

theorem digitVal_digitChar {d : Nat} (h : d < 10) :
    digitVal (digitChar d) = d := by
  interval_cases d <;> decide

theorem decDigits_lt (n : Nat) : ∀ d ∈ decDigits n, d < 10 := by
  unfold decDigits
  by_cases h0 : n = 0
  · simp [h0]
  · rw [if_neg h0, decDigitsCore_eq_digits n n le_rfl]
    intro d hd
    exact Nat.digits_lt_base (by norm_num) (List.mem_reverse.mp hd)

theorem foldr_eq_ofDigits (l : List Nat) :
    l.foldr (fun d a => 10 * a + d) 0 = Nat.ofDigits 10 l := by
  induction l with
  | nil => simp [Nat.ofDigits]
  | cons d t ih => simp [Nat.ofDigits_cons, ih]; omega

theorem decDigits_foldl (n : Nat) :
    (decDigits n).foldl (fun a d => 10 * a + d) 0 = n := by
  unfold decDigits
  by_cases h0 : n = 0
  · simp [h0]
  · rw [if_neg h0, decDigitsCore_eq_digits n n le_rfl, List.foldl_reverse]
    have : (Nat.digits 10 n).foldr (fun x y => 10 * y + x) 0 =
        (Nat.digits 10 n).foldr (fun d a => 10 * a + d) 0 := rfl
    rw [this, foldr_eq_ofDigits, Nat.ofDigits_digits]

theorem parseDigitsAux_append (ds : List Nat) :
    ∀ (acc : Nat) (rest : List Char), (∀ d ∈ ds, d < 10) →
      startsWithDigit rest = false →
      parseDigitsAux acc (ds.map digitChar ++ rest) =
        (ds.foldl (fun a d => 10 * a + d) acc, rest) := by
  induction ds with
  | nil =>
    intro acc rest _ hrest
    cases rest with
    | nil => rfl
    | cons c t =>
      simp only [startsWithDigit] at hrest
      simp [parseDigitsAux, hrest]
  | cons d t ih =>
    intro acc rest hlt hrest
    have hd : d < 10 := hlt d (List.mem_cons_self d t)
    simp only [List.map_cons, List.cons_append, parseDigitsAux,
      digitChar_isDigit hd, if_true, digitVal_digitChar hd, List.append_eq]
    rw [ih (10 * acc + d) rest (fun x hx => hlt x (List.mem_cons_of_mem d hx)) hrest]
    rfl

theorem parseDigitsAux_natToChars (n : Nat) (rest : List Char)
    (hrest : startsWithDigit rest = false) :
    parseDigitsAux 0 (natToChars n ++ rest) = (n, rest) := by
  unfold natToChars
  rw [parseDigitsAux_append (decDigits n) 0 rest (decDigits_lt n) hrest,
    decDigits_foldl]

theorem decDigits_ne_nil (n : Nat) : decDigits n ≠ [] := by
  unfold decDigits
  by_cases h0 : n = 0
  · simp [h0]
  · rw [if_neg h0, decDigitsCore_eq_digits n n le_rfl]
    simp [Nat.digits_ne_nil_iff_ne_zero, h0]

theorem natToChars_shape (n : Nat) :
    ∃ c t, natToChars n = c :: t ∧ c.isDigit = true := by
  unfold natToChars
  rcases hds : decDigits n with _ | ⟨d, ds⟩
  · exact absurd hds (decDigits_ne_nil n)
  · have hd : d < 10 := decDigits_lt n d (by rw [hds]; exact List.mem_cons_self d ds)
    exact ⟨digitChar d, ds.map digitChar, by simp, digitChar_isDigit hd⟩

theorem psb_quote (rest : List Char) :
    parseStringBody ('"' :: rest) = some ([], rest) := by
  rw [parseStringBody.eq_def]
  simp

theorem psb_esc (e : Char) (rest : List Char) :
    parseStringBody ('\\' :: e :: rest) =
      match parseStringBody rest with
      | some (s, r) => some (unescChar e :: s, r)
      | none => none := by
  rw [parseStringBody.eq_def]
  simp

theorem psb_plain (c : Char) (rest : List Char) (h1 : c ≠ '"') (h2 : c ≠ '\\') :
    parseStringBody (c :: rest) =
      match parseStringBody rest with
      | some (s, r) => some (c :: s, r)
      | none => none := by
  rw [parseStringBody.eq_def]
  simp [h1, h2]

theorem escChar_unesc (c : Char) (rest : List Char) :
    parseStringBody (escChar c ++ rest) =
      match parseStringBody rest with
      | some (s, r) => some (c :: s, r)
      | none => none := by
  unfold escChar
  by_cases hq : c = '"' ∨ c = '\\'
  · rw [if_pos hq]
    simp only [List.cons_append, List.nil_append]
    rw [psb_esc]
    have hu : unescChar c = c := by
      rcases hq with hq | hq <;> subst hq <;> decide
    simp only [hu]
  · push_neg at hq
    obtain ⟨hq1, hq2⟩ := hq
    rw [if_neg (by tauto)]
    by_cases hn : c = '\n'
    · subst hn
      rw [if_pos rfl]
      simp only [List.cons_append, List.nil_append]
      rw [psb_esc]
      simp only [show unescChar 'n' = '\n' from rfl]
    · rw [if_neg hn]
      by_cases ht : c = '\t'
      · subst ht
        rw [if_pos rfl]
        simp only [List.cons_append, List.nil_append]
        rw [psb_esc]
        simp only [show unescChar 't' = '\t' from rfl]
      · rw [if_neg ht]
        by_cases hr : c = '\r'
        · subst hr
          rw [if_pos rfl]
          simp only [List.cons_append, List.nil_append]
          rw [psb_esc]
          simp only [show unescChar 'r' = '\r' from rfl]
        · rw [if_neg hr]
          simp only [List.singleton_append]
          exact psb_plain c rest hq1 hq2

theorem parseStringBody_esc (cs : List Char) :
    ∀ rest, parseStringBody (escChars cs ++ '"' :: rest) = some (cs, rest) := by
  induction cs with
  | nil =>
    intro rest
    simp only [escChars, List.nil_append]
    exact psb_quote rest
  | cons c t ih =>
    intro rest
    rw [show escChars (c :: t) ++ '"' :: rest = escChar c ++ (escChars t ++ '"' :: rest) by
      simp [escChars], escChar_unesc, ih rest]

theorem mk_data (s : String) : String.mk s.data = s := by
  cases s
  rfl

/-- A decimal digit is none of the characters the value parser
dispatches or terminates on. -/
theorem isDigit_ne (c : Char) (h : c.isDigit = true) :
    c ≠ 'n' ∧ c ≠ 't' ∧ c ≠ 'f' ∧ c ≠ '"' ∧ c ≠ '[' ∧ c ≠ '{' ∧ c ≠ '-' ∧
    c ≠ ']' ∧ c ≠ '}' ∧ c ≠ ',' := by
  refine ⟨?_, ?_, ?_, ?_, ?_, ?_, ?_, ?_, ?_, ?_⟩ <;>
    exact fun he => by rw [he] at h; exact absurd h (by decide)

theorem parseDigitsAux_natToChars_cons (m : Nat) (c : Char) (t : List Char)
    (hshape : natToChars m = c :: t) (hdig : c.isDigit = true)
    (rest : List Char) (hrest : startsWithDigit rest = false) :
    parseDigitsAux (digitVal c) (t ++ rest) = (m, rest) := by
  have h0 := parseDigitsAux_natToChars m rest hrest
  rw [hshape] at h0
  simpa [parseDigitsAux, hdig] using h0

/-- The value parser consumes a rendered integer. -/
theorem parseVal_intToChars (n : Int) (fuel : Nat) (rest : List Char)
    (hrest : startsWithDigit rest = false) :
    parseJsonVal (fuel + 1) (intToChars n ++ rest) = some (.num n, rest) := by
  by_cases hneg : n < 0
  · obtain ⟨c2, t2, hshape, hdig⟩ := natToChars_shape n.natAbs
    have hform : intToChars n ++ rest = '-' :: (c2 :: (t2 ++ rest)) := by
      simp [intToChars, if_pos hneg, hshape]
    rw [hform, parseJsonVal_step,
      if_neg (by decide : ¬ ('-' : Char) = 'n'),
      if_neg (by decide : ¬ ('-' : Char) = 't'),
      if_neg (by decide : ¬ ('-' : Char) = 'f'),
      if_neg (by decide : ¬ ('-' : Char) = '"'),
      if_neg (by decide : ¬ ('-' : Char) = '['),
      if_neg (by decide : ¬ ('-' : Char) = '{'),
      if_pos (rfl : ('-' : Char) = '-')]
    simp only [parseNegTail, hdig, if_true,
      parseDigitsAux_natToChars_cons n.natAbs c2 t2 hshape hdig rest hrest]
    have hval : -((n.natAbs : Nat) : Int) = n := by omega
    rw [hval]
  · obtain ⟨c, t, hshape, hdig⟩ := natToChars_shape n.toNat
    have hform : intToChars n ++ rest = c :: (t ++ rest) := by
      simp [intToChars, if_neg hneg, hshape]
    obtain ⟨hn, ht, hf, hq, hb, hc, hm, _, _, _⟩ := isDigit_ne c hdig
    rw [hform, parseJsonVal_step, if_neg hn, if_neg ht, if_neg hf, if_neg hq,
      if_neg hb, if_neg hc, if_neg hm, if_pos hdig]
    unfold parseNumTail
    rw [parseDigitsAux_natToChars_cons n.toNat c t hshape hdig rest hrest]
    have hval : ((n.toNat : Nat) : Int) = n := by omega
    simp only [hval]

theorem natToChars_ne_nil (n : Nat) : natToChars n ≠ [] := by
  obtain ⟨c, t, hshape, _⟩ := natToChars_shape n
  simp [hshape]

/-- Every rendered JSON value starts with a character distinct from the
closing bracket and brace of the container parsers. -/
theorem jsonChars_shape (j : Json) :
    ∃ c t, jsonChars j = c :: t ∧ c ≠ ']' ∧ c ≠ '}' := by
  cases j with
  | null => exact ⟨'n', _, rfl, by decide, by decide⟩
  | bool b => cases b with
    | true => exact ⟨'t', _, rfl, by decide, by decide⟩
    | false => exact ⟨'f', _, rfl, by decide, by decide⟩
  | num n =>
    by_cases hneg : n < 0
    · exact ⟨'-', natToChars n.natAbs,
        by simp [jsonChars, intToChars, if_pos hneg], by decide, by decide⟩
    · obtain ⟨c, t, hshape, hdig⟩ := natToChars_shape n.toNat
      obtain ⟨_, _, _, _, _, _, _, hrb, hcb, _⟩ := isDigit_ne c hdig
      exact ⟨c, t, by simp [jsonChars, intToChars, if_neg hneg, hshape], hrb, hcb⟩
  | str s => exact ⟨'"', _, rfl, by decide, by decide⟩
  | arr es => exact ⟨'[', _, rfl, by decide, by decide⟩
  | obj ms => exact ⟨'{', _, rfl, by decide, by decide⟩

theorem jsonChars_length_pos (j : Json) : 1 ≤ (jsonChars j).length := by
  obtain ⟨c, t, hshape, _, _⟩ := jsonChars_shape j
  simp [hshape]

theorem strChars_length (s : String) : 2 ≤ (strChars s).length := by
  simp [strChars]

/-- The rendering of a non-empty element list begins with the first
character of its first element, never the closing bracket. -/
theorem elemsChars_head (x : Json) (xt : JsonList) :
    ∃ c0 t0, elemsChars (.cons x xt) = c0 :: t0 ∧ c0 ≠ ']' := by
  obtain ⟨c0, t0, hsh, hc0, _⟩ := jsonChars_shape x
  cases xt with
  | nil => exact ⟨c0, t0, by simp [elemsChars, hsh], hc0⟩
  | cons y t =>
    exact ⟨c0, t0 ++ ',' :: elemsChars (.cons y t), by simp [elemsChars, hsh], hc0⟩

/-- One-step unfolding of the member parser at positive fuel when the
input opens a string key. -/
theorem parseMembers_quote (fuel : Nat) (r0 : List Char) :
    parseMembers (fuel + 1) ('"' :: r0) =
      match parseStringBody r0 with
      | none => none
      | some (k, r1) =>
        match r1 with
        | ':' :: r2 =>
          match parseJsonVal fuel r2 with
          | none => none
          | some (v, r3) =>
            match r3 with
            | ',' :: r4 =>
              match parseMembers fuel r4 with
              | some (ms, r5) => some (.cons (String.mk k) v ms, r5)
              | none => none
            | '}' :: r4 => some (.cons (String.mk k) v .nil, r4)
            | _ => none
        | _ => none := by
  rw [parseMembers]

mutual
/-- Parsing inverts rendering for every JSON value, given fuel beyond
the rendered length and a remainder that does not begin with a digit. -/
theorem parse_render_val : ∀ (j : Json) (fuel : Nat) (rest : List Char),
    (jsonChars j).length < fuel → startsWithDigit rest = false →
    parseJsonVal fuel (jsonChars j ++ rest) = some (j, rest)
  | _, 0, _, hlen, _ => absurd hlen (Nat.not_lt_zero _)
  | .null, fuel + 1, rest, _, _ => by
    rw [show jsonChars .null ++ rest = 'n' :: 'u' :: 'l' :: 'l' :: rest from rfl,
      parseJsonVal_step]
    simp [parseNullTail]
  | .bool true, fuel + 1, rest, _, _ => by
    rw [show jsonChars (.bool true) ++ rest = 't' :: 'r' :: 'u' :: 'e' :: rest from rfl,
      parseJsonVal_step]
    simp [parseTrueTail]
  | .bool false, fuel + 1, rest, _, _ => by
    rw [show jsonChars (.bool false) ++ rest =
        'f' :: 'a' :: 'l' :: 's' :: 'e' :: rest from rfl,
      parseJsonVal_step]
    simp [parseFalseTail]
  | .num n, fuel + 1, rest, _, hrest => parseVal_intToChars n fuel rest hrest
  | .str s, fuel + 1, rest, _, _ => by
    rw [show jsonChars (.str s) ++ rest = '"' :: (escChars s.data ++ '"' :: rest) from by
        simp [jsonChars, strChars],
      parseJsonVal_step]
    simp [parseStrTail, parseStringBody_esc, mk_data]
  | .arr .nil, fuel + 1, rest, _, _ => by
    rw [show jsonChars (.arr .nil) ++ rest = '[' :: ']' :: rest from rfl,
      parseJsonVal_step]
    simp [parseArrTail]
  | .arr (.cons x xt), fuel + 1, rest, hlen, _ => by
    have hlen2 : (jsonChars (.arr (.cons x xt))).length =
        (elemsChars (.cons x xt)).length + 2 := by
      simp [jsonChars]
    have hbound : (elemsChars (.cons x xt)).length + 1 < fuel := by omega
    obtain ⟨c0, t0, hsh, hc0⟩ := elemsChars_head x xt
    rw [show jsonChars (.arr (.cons x xt)) ++ rest =
        '[' :: (elemsChars (.cons x xt) ++ ']' :: rest) from by simp [jsonChars],
      parseJsonVal_step,
      if_neg (by decide : ¬ ('[' : Char) = 'n'),
      if_neg (by decide : ¬ ('[' : Char) = 't'),
      if_neg (by decide : ¬ ('[' : Char) = 'f'),
      if_neg (by decide : ¬ ('[' : Char) = '"'),
      if_pos (rfl : ('[' : Char) = '[')]
    rw [show elemsChars (.cons x xt) ++ ']' :: rest = c0 :: (t0 ++ ']' :: rest) from by
      rw [hsh]; rfl]
    simp only [parseArrTail]
    rw [if_neg hc0,
      show c0 :: (t0 ++ ']' :: rest) = elemsChars (.cons x xt) ++ ']' :: rest from by
        rw [hsh]; rfl,
      parse_render_elems x xt fuel rest hbound]
  | .obj .nil, fuel + 1, rest, _, _ => by
    rw [show jsonChars (.obj .nil) ++ rest = '{' :: '}' :: rest from rfl,
      parseJsonVal_step]
    simp [parseObjTail]
  | .obj (.cons k v mt), fuel + 1, rest, hlen, _ => by
    have hlen2 : (jsonChars (.obj (.cons k v mt))).length =
        (membersChars (.cons k v mt)).length + 2 := by
      simp [jsonChars]
    have hbound : (membersChars (.cons k v mt)).length + 1 < fuel := by omega
    have hhead : ∃ t0, membersChars (.cons k v mt) = '"' :: t0 := by
      cases mt with
      | nil =>
        exact ⟨escChars k.data ++ '"' :: ':' :: jsonChars v,
          by simp [membersChars, strChars]⟩
      | cons k2 v2 t =>
        exact ⟨escChars k.data ++ '"' :: ':' ::
            (jsonChars v ++ ',' :: membersChars (.cons k2 v2 t)),
          by simp [membersChars, strChars]⟩
    obtain ⟨t0, hsh⟩ := hhead
    rw [show jsonChars (.obj (.cons k v mt)) ++ rest =
        '{' :: (membersChars (.cons k v mt) ++ '}' :: rest) from by simp [jsonChars],
      parseJsonVal_step,
      if_neg (by decide : ¬ ('{' : Char) = 'n'),
      if_neg (by decide : ¬ ('{' : Char) = 't'),
      if_neg (by decide : ¬ ('{' : Char) = 'f'),
      if_neg (by decide : ¬ ('{' : Char) = '"'),
      if_neg (by decide : ¬ ('{' : Char) = '['),
      if_pos (rfl : ('{' : Char) = '{')]
    rw [show membersChars (.cons k v mt) ++ '}' :: rest = '"' :: (t0 ++ '}' :: rest) from by
      rw [hsh]; rfl]
    simp only [parseObjTail]
    rw [if_neg (by decide : ¬ ('"' : Char) = '}'),
      show ('"' : Char) :: (t0 ++ '}' :: rest) = membersChars (.cons k v mt) ++ '}' :: rest
        from by rw [hsh]; rfl,
      parse_render_members k v mt fuel rest hbound]
termination_by j _ _ _ _ => sizeOf j

/-- Parsing inverts rendering for non-empty element lists followed by
their closing bracket. -/
theorem parse_render_elems : ∀ (x : Json) (xt : JsonList) (fuel : Nat) (rest : List Char),
    (elemsChars (.cons x xt)).length + 1 < fuel →
    parseElems fuel (elemsChars (.cons x xt) ++ ']' :: rest) = some (.cons x xt, rest)
  | _, _, 0, _, hlen => absurd hlen (Nat.not_lt_zero _)
  | x, .nil, fuel + 1, rest, hlen => by
    have hcl : elemsChars (.cons x .nil) = jsonChars x := by simp [elemsChars]
    have hbx : (jsonChars x).length < fuel := by
      rw [hcl] at hlen; omega
    rw [parseElems_step, hcl,
      parse_render_val x fuel (']' :: rest) hbx rfl]
    rfl
  | x, .cons y t, fuel + 1, rest, hlen => by
    have hcl : elemsChars (.cons x (.cons y t)) =
        jsonChars x ++ ',' :: elemsChars (.cons y t) := by simp [elemsChars]
    have hlx : 1 ≤ (jsonChars x).length := jsonChars_length_pos x
    have hlens : (elemsChars (.cons x (.cons y t))).length =
        (jsonChars x).length + 1 + (elemsChars (.cons y t)).length := by
      rw [hcl]; simp; omega
    have hbx : (jsonChars x).length < fuel := by omega
    have hbt : (elemsChars (.cons y t)).length + 1 < fuel := by omega
    rw [parseElems_step,
      show elemsChars (.cons x (.cons y t)) ++ ']' :: rest =
          jsonChars x ++ ',' :: (elemsChars (.cons y t) ++ ']' :: rest) from by
        rw [hcl]; simp,
      parse_render_val x fuel (',' :: (elemsChars (.cons y t) ++ ']' :: rest)) hbx rfl]
    simp only [parse_render_elems y t fuel rest hbt]
termination_by x xt _ _ _ => sizeOf (JsonList.cons x xt)

/-- Parsing inverts rendering for non-empty member lists followed by
their closing brace. -/
theorem parse_render_members : ∀ (k : String) (v : Json) (mt : JsonMembers)
    (fuel : Nat) (rest : List Char),
    (membersChars (.cons k v mt)).length + 1 < fuel →
    parseMembers fuel (membersChars (.cons k v mt) ++ '}' :: rest) =
      some (.cons k v mt, rest)
  | _, _, _, 0, _, hlen => absurd hlen (Nat.not_lt_zero _)
  | k, v, .nil, fuel + 1, rest, hlen => by
    have hsk : 2 ≤ (strChars k).length := strChars_length k
    have hlens : (membersChars (.cons k v .nil)).length =
        (strChars k).length + 1 + (jsonChars v).length := by
      simp [membersChars]; omega
    have hbv : (jsonChars v).length < fuel := by omega
    rw [show membersChars (.cons k v .nil) ++ '}' :: rest =
        '"' :: (escChars k.data ++ '"' :: (':' :: (jsonChars v ++ '}' :: rest))) from by
      simp [membersChars, strChars],
      parseMembers_quote, parseStringBody_esc]
    simp only [parse_render_val v fuel ('}' :: rest) hbv rfl, mk_data]
  | k, v, .cons k2 v2 t, fuel + 1, rest, hlen => by
    have hsk : 2 ≤ (strChars k).length := strChars_length k
    have hlv : 1 ≤ (jsonChars v).length := jsonChars_length_pos v
    have hlens : (membersChars (.cons k v (.cons k2 v2 t))).length =
        (strChars k).length + 1 + (jsonChars v).length + 1 +
          (membersChars (.cons k2 v2 t)).length := by
      simp [membersChars]; omega
    have hbv : (jsonChars v).length < fuel := by omega
    have hbt : (membersChars (.cons k2 v2 t)).length + 1 < fuel := by omega
    rw [show membersChars (.cons k v (.cons k2 v2 t)) ++ '}' :: rest =
        '"' :: (escChars k.data ++ '"' :: (':' :: (jsonChars v ++
          ',' :: (membersChars (.cons k2 v2 t) ++ '}' :: rest)))) from by
      simp [membersChars, strChars],
      parseMembers_quote, parseStringBody_esc]
    simp only [parse_render_val v fuel
      (',' :: (membersChars (.cons k2 v2 t) ++ '}' :: rest)) hbv rfl]
    simp only [parse_render_members k2 v2 t fuel rest hbt, mk_data]
termination_by k v mt _ _ _ => sizeOf (JsonMembers.cons k v mt)
end

/-- JSON.parse inverts JSON.stringify on every modelled JSON value. -/
theorem parseJson_stringify (j : Json) : parseJson (stringifyJson j) = some j := by
  unfold parseJson stringifyJson
  rw [show (String.mk (jsonChars j)).data = jsonChars j from rfl]
  have h := parse_render_val j ((jsonChars j).length + 1) [] (by omega) rfl
  rw [show jsonChars j ++ ([] : List Char) = jsonChars j from by simp] at h
  rw [h]

/-! ### The json input encoding and json output decoding
(src/utils.ts lines 640-684 and 759-775) -/

/-- The json branch of encodeInput (src/utils.ts lines 651-653):
`typeof data === 'string' ? data : JSON.stringify(data)`.  A string
value passes through unchanged; anything else is serialized. -/
def encodeInputJson (data : Json) : String :=
  match data with
  | .str s => s
  | j => stringifyJson j

/-- processJsonOutput (src/utils.ts lines 759-775): objects and arrays
(typeof object, non-null) are returned unchanged; strings are parsed as
JSON, a parse failure raising ValidationError; every other value is
returned as is. -/
def processJsonOutput (data : Json) : Except TypedError Json :=
  match data with
  | .arr es => .ok (.arr es)
  | .obj ms => .ok (.obj ms)
  | .str s =>
    match parseJson s with
    | some v => .ok v
    | none => .error
        { kind := .validation
          message := "Failed to parse response as JSON"
          statusCode := 400
          retryMeta := none }
  | j => .ok j

/-- C4 (amended): the json encode/decode round-trip holds for every
JSON-serializable value that is not itself a string: the encoder
serializes it and the decoder parses the serialization back.  (A string
value is passed through unchanged by the encoder, so the decoder
JSON-parses its contents instead of returning it; see the
counterexample.) -/
theorem json_roundtrip_nonstring (x : Json) (hns : ∀ s, x ≠ .str s) :
    processJsonOutput (.str (encodeInputJson x)) = .ok x := by
  have henc : encodeInputJson x = stringifyJson x := by
    cases x with
    | str s => exact absurd rfl (hns s)
    | null => rfl
    | bool b => rfl
    | num n => rfl
    | arr es => rfl
    | obj ms => rfl
  rw [henc]
  have hstr : ∀ s : String, processJsonOutput (.str s) =
      match parseJson s with
      | some v => Except.ok v
      | none => Except.error
          ⟨.validation, "Failed to parse response as JSON", 400, none⟩ :=
    fun _ => rfl
  rw [hstr, parseJson_stringify x]

/-- Witness for C4: the round-trip at the non-string value 5. -/
theorem json_roundtrip_nonstring_witness :
    (∀ s, Json.num 5 ≠ Json.str s) ∧
    processJsonOutput (.str (encodeInputJson (.num 5))) = .ok (.num 5) :=
  ⟨fun _ h => Json.noConfusion h,
    json_roundtrip_nonstring (.num 5) (fun _ h => Json.noConfusion h)⟩

/-- Counterexample to C4 as stated: for the JSON-serializable string
value "true", the encoder passes the string through unchanged, so the
decoder parses it as the JSON literal true; the round trip returns the
boolean true, not the original string. -/
theorem json_roundtrip_fails_for_string :
    processJsonOutput (.str (encodeInputJson (.str "true"))) = .ok (.bool true) ∧
    Json.bool true ≠ Json.str "true" :=
  ⟨rfl, fun h => Json.noConfusion h⟩

/-! ### Markdown output decoding (src/utils.ts lines 710-794) -/

/-- The common members of the regex whitespace class; exotic unicode
spaces are outside the model. -/
def jsSpace (c : Char) : Bool :=
  c = ' ' || c = '\t' || c = '\n' || c = '\r'

/-- The regex word class: ASCII letters, digits and underscore. -/
def jsWordChar (c : Char) : Bool :=
  c.isAlphanum || c = '_'

def countLeadingHashes : List Char → Nat
  | '#' :: t => 1 + countLeadingHashes t
  | _ => 0

/-- String.prototype.trim on a character list. -/
def jsTrim (cs : List Char) : List Char :=
  ((cs.dropWhile (fun c => jsSpace c)).reverse.dropWhile (fun c => jsSpace c)).reverse

/-- One line of the heading regex of extractHeadings (src/utils.ts line
711), `^(#{1,6})\s+(.+)$` applied per line: one to six leading hashes,
at least one whitespace character, and at least one further character;
the captured text is trimmed (the greedy `\s+` leaves the capture equal
to the trimmed remainder).  With seven or more hashes no match is
possible, since backtracking still faces a hash where whitespace is
required.  (The exotic backtracking of the multiline regex across a
newline when a hash run is followed only by whitespace is outside the
model.) -/
def parseHeadingLine (line : List Char) : Option (Nat × List Char) :=
  let hashes := countLeadingHashes line
  if 1 ≤ hashes ∧ hashes ≤ 6 then
    match line.drop hashes with
    | c :: _ :: _ => if jsSpace c then some (hashes, jsTrim (line.drop hashes)) else none
    | _ => none
  else none

/-- Split on newline characters, keeping empty segments, as the
multiline anchors of the regex see the text. -/
def splitOnNewline : List Char → List (List Char)
  | [] => [[]]
  | '\n' :: t => [] :: splitOnNewline t
  | c :: t =>
    match splitOnNewline t with
    | [] => [[c]]
    | l :: ls => (c :: l) :: ls

/-- extractHeadings (src/utils.ts lines 710-723). -/
def extractHeadings (markdown : String) : List (Nat × String) :=
  ((splitOnNewline markdown.data).filterMap parseHeadingLine).map
    (fun p => (p.1, String.mk p.2))

/-- Whitespace-run collapsing of the global replace of the regex class
backslash-s-plus by a hyphen: every maximal whitespace run becomes a
single hyphen. -/
def collapseWsAux : Bool → List Char → List Char
  | _, [] => []
  | inRun, c :: t =>
    if jsSpace c then
      if inRun then collapseWsAux true t else '-' :: collapseWsAux true t
    else c :: collapseWsAux false t

/-- The anchor slug of generateToc (src/utils.ts lines 741-744):
lowercase, strip characters outside `[\w\s-]`, then collapse whitespace
runs to single hyphens. -/
def slugChars (text : List Char) : List Char :=
  collapseWsAux false
    (((text.map Char.toLower).filter
      (fun c => jsWordChar c || jsSpace c || c = '-')))

/-- generateToc (src/utils.ts lines 731-751): a heading of level at
least minLevel contributes an indented markdown list line whose
indentation doubles the level difference. -/
def generateToc (headings : List (Nat × String)) (minLevel : Nat) : String :=
  if headings = [] then ""
  else
    headings.foldl
      (fun toc h =>
        if minLevel ≤ h.1 then
          toc ++ String.mk (List.replicate (2 * (h.1 - minLevel)) ' ') ++
            "- [" ++ h.2 ++ "](#" ++ String.mk (slugChars h.2.data) ++ ")\n"
        else toc)
      ""

structure MarkdownFormatOptions where
  toc : Bool
  headerLevel : Option Nat
  deriving DecidableEq

/-- The fallback `options.headerLevel || 1`: an absent or zero (falsy)
headerLevel falls back to 1. -/
def resolvedHeaderLevel (headerLevel : Option Nat) : Nat :=
  match headerLevel with
  | some h => if h = 0 then 1 else h
  | none => 1

/-- processMarkdownOutput (src/utils.ts lines 783-794) on string data:
with toc requested, the generated table of contents plus a blank line
is prepended to the unchanged markdown. -/
def processMarkdownOutput (data : String) (options : Option MarkdownFormatOptions) :
    String :=
  match options with
  | some o =>
    if o.toc then
      generateToc (extractHeadings data) (resolvedHeaderLevel o.headerLevel) ++
        "\n\n" ++ data
    else data
  | none => data

/-- C8: decoding the markdown "# A\nbody\n## B\n" with toc:true and
headerLevel 1 yields the two-line table of contents, a blank line, and
the original markdown unchanged; the extracted headings are A at level 1
and B at level 2, and their TOC lines carry the lowercased slug anchors
with two-space indentation per level above the minimum. -/
theorem markdown_toc_scenario :
    processMarkdownOutput "# A\nbody\n## B\n"
        (some { toc := true, headerLevel := some 1 }) =
      "- [A](#a)\n  - [B](#b)\n\n\n# A\nbody\n## B\n" ∧
    extractHeadings "# A\nbody\n## B\n" = [(1, "A"), (2, "B")] ∧
    generateToc [(1, "A"), (2, "B")] 1 = "- [A](#a)\n  - [B](#b)\n" := by
  refine ⟨?_, ?_, ?_⟩ <;> rfl

/-! ### Parameter validation (src/utils.ts lines 505-560) -/

def mkValidationError (msg : String) : TypedError :=
  { kind := .validation, message := msg, statusCode := 400, retryMeta := none }

def authNotSetError : TypedError :=
  { kind := .authentication
    message := "API token not set. Please set a token before making requests."
    statusCode := 401
    retryMeta := none }

/-- JavaScript falsiness of an optional string: absent, null or empty. -/
def strFalsy : Option String → Bool
  | none => true
  | some s => s = ""

/-- A runtime value in a field the source expects to be a string;
callers typed as any may pass something else. -/
inductive JsStringField where
  | strVal (s : String)
  | nonString
  deriving DecidableEq

/-- The PluggridConfig of src/types.ts: id, version and custom
instructions (the open index signature carries no behaviour the claims
touch). -/
structure PluggridConfig where
  id : Option String := none
  version : Option String := none
  customInstructions : Option String := none
  deriving DecidableEq

/-- A runtime value in the pluggrid field: a configuration object or a
non-object passed through an any cast. -/
inductive PluggridField where
  | conf (c : PluggridConfig)
  | nonObject
  deriving DecidableEq

/-- The RequestParams bag as validateParams inspects it; absent and
null fields are both modelled as none (the source skips both). -/
structure RequestParamsModel where
  query : Option JsStringField := none
  pluggrid : Option PluggridField := none
  inputEncoding : Option String := none
  outputEncoding : Option String := none
  deriving DecidableEq

/-- isValidInputEncoding (src/utils.ts lines 549-551). -/
def isValidInputEncoding (encoding : String) : Bool :=
  ["text", "json", "image", "audio", "video", "binary"].contains encoding

/-- isValidOutputEncoding (src/utils.ts lines 558-560). -/
def isValidOutputEncoding (encoding : String) : Bool :=
  ["text", "json", "audio", "image", "markdown", "html", "xml"].contains encoding

def validateEncodingTokens (params : RequestParamsModel) : Except TypedError Unit :=
  match params.inputEncoding with
  | some enc =>
    if enc ≠ "" ∧ isValidInputEncoding enc = false then
      .error (mkValidationError ("Invalid input encoding: " ++ enc))
    else
      match params.outputEncoding with
      | some enc2 =>
        if enc2 ≠ "" ∧ isValidOutputEncoding enc2 = false then
          .error (mkValidationError ("Invalid output encoding: " ++ enc2))
        else .ok ()
      | none => .ok ()
  | none =>
    match params.outputEncoding with
    | some enc2 =>
      if enc2 ≠ "" ∧ isValidOutputEncoding enc2 = false then
        .error (mkValidationError ("Invalid output encoding: " ++ enc2))
      else .ok ()
    | none => .ok ()

/-- validateParams (src/utils.ts lines 505-542): a present query must be
a non-empty string; a present pluggrid must be an object with a truthy
id; present encoding fields must be (truthy and) in the valid token
sets.  The non-object parameter-bag guard of the source cannot fire in
the model, where the bag is always a record. -/
def validateParams (params : RequestParamsModel) : Except TypedError Unit :=
  match params.query with
  | some .nonString => .error (mkValidationError "Query parameter must be a string")
  | some (.strVal "") => .error (mkValidationError "Query parameter cannot be empty")
  | _ =>
    match params.pluggrid with
    | some .nonObject => .error (mkValidationError "Pluggrid parameter must be an object")
    | some (.conf pc) =>
      if strFalsy pc.id then .error (mkValidationError "Pluggrid id is required")
      else validateEncodingTokens params
    | none => validateEncodingTokens params

/-! ### Client state and token lifecycle (src/client.ts lines 230-286) -/

/-- PluggedInOptions of src/types.ts. -/
structure PluggedInOptions where
  apiUrl : Option String := none
  apiToken : Option String := none
  timeout : Option Nat := none
  defaultModel : Option String := none
  defaultInputEncoding : Option String := none
  defaultOutputEncoding : Option String := none
  retryConfig : Option RetryConfigOpt := none

/-- The mutable state of a PluggedInClient: the configuration fields and
the default Authorization header of the axios instance. -/
structure ClientState where
  apiUrl : String
  apiToken : Option String
  timeout : Nat
  defaultModel : Option String
  defaultInputEncoding : String
  defaultOutputEncoding : String
  retryConfig : RetryConfig
  authHeader : Option String

/-- The constructor (src/client.ts lines 244-269): `x || default`
fallbacks throughout (an empty string is falsy), `apiToken || null`
normalization, and the Authorization header installed exactly when the
token is present. -/
def mkClient (options : PluggedInOptions) : ClientState :=
  let token : Option String :=
    match options.apiToken with
    | some s => if s = "" then none else some s
    | none => none
  { apiUrl := orDefault options.apiUrl "https://api.plugged.in"
    apiToken := token
    timeout :=
      match options.timeout with
      | some t => if t = 0 then 30000 else t
      | none => 30000
    defaultModel :=
      match options.defaultModel with
      | some s => if s = "" then none else some s
      | none => none
    defaultInputEncoding := orDefault options.defaultInputEncoding "text"
    defaultOutputEncoding := orDefault options.defaultOutputEncoding "text"
    retryConfig := effectiveRetryConfig options.retryConfig
    authHeader := token.map (fun t => "Bearer " ++ t) }

/-- setToken (src/client.ts lines 275-278): store the token and set the
default Authorization header. -/
def setToken (c : ClientState) (token : String) : ClientState :=
  { c with apiToken := some token, authHeader := some ("Bearer " ++ token) }

/-- clearToken (src/client.ts lines 283-286): null the token and delete
the default Authorization header. -/
def clearToken (c : ClientState) : ClientState :=
  { c with apiToken := none, authHeader := none }

/-- The invariant tying the default Authorization header to the stored
credential. -/
def headerInvariant (c : ClientState) : Prop :=
  c.authHeader = c.apiToken.map (fun t => "Bearer " ++ t)

/-! ### Request dispatch and the query pipelines
(src/client.ts lines 293-323, 333-454, 462-580) -/

/-- The JSON body fields the query pipeline assembles (src/client.ts
lines 384-428); arbitrary extra caller fields are outside the claims. -/
structure QueryRequestData where
  query : String
  pluggrid : Option PluggridConfig
  inputEncoding : String
  outputEncoding : String
  model : Option String
  deriving DecidableEq

inductive RequestBody where
  | empty
  | queryJson (d : QueryRequestData)
  | rawJson (prompt : String) (model : String) (customInstructions : Option String)
      (inputEncoding : String) (outputEncoding : String)
  | multipart
  deriving DecidableEq

/-- An immutable description of one HTTP dispatch.  The query-string
rendering of buildUrl (URL and searchParams percent-encoding) is a host
detail; the intent carries the endpoint and the params structurally. -/
structure RequestIntent where
  method : String
  endpoint : String
  params : Option RequestParamsModel
  body : RequestBody
  authHeader : Option String
  deriving DecidableEq

structure RequestConfigModel where
  method : Option String := none
  endpoint : String
  params : Option RequestParamsModel := none
  body : RequestBody := .empty

/-- request (src/client.ts lines 293-323): reject without a (truthy)
token before anything else, then validate params when supplied, then
yield the dispatch intent with the method defaulted to GET and the
instance Authorization header attached. -/
def request (c : ClientState) (cfg : RequestConfigModel) :
    Except TypedError RequestIntent :=
  if strFalsy c.apiToken then .error authNotSetError
  else
    match cfg.params with
    | some ps =>
      match validateParams ps with
      | .error e => .error e
      | .ok _ =>
        .ok { method := cfg.method.getD "GET", endpoint := cfg.endpoint,
              params := cfg.params, body := cfg.body, authHeader := c.authHeader }
    | none =>
      .ok { method := cfg.method.getD "GET", endpoint := cfg.endpoint,
            params := cfg.params, body := cfg.body, authHeader := c.authHeader }

/-- A prompt value at runtime: a string, byte-backed data (Buffer or
ArrayBuffer), or some other truthy value passed through an any cast
(for example a number).  Falsy prompts other than the empty string are
outside the model; they fail the same initial truthiness check. -/
inductive PromptValue where
  | str (s : String)
  | bytes (isArrayBuffer : Bool) (data : List Nat)
  | otherTruthy
  deriving DecidableEq

def promptTruthy : PromptValue → Bool
  | .str s => s ≠ ""
  | _ => true

/-- The QueryParams fields the pre-dispatch pipeline reads.  attachments
is any present array (arrays are truthy even when empty); the metadata
mimeType participates via optional chaining. -/
structure QueryParamsModel where
  inputEncoding : Option String := none
  outputEncoding : Option String := none
  model : Option String := none
  attachmentsPresent : Bool := false
  metadataMimeType : Option String := none
  deriving DecidableEq

/-- The second query argument: a bare pluggrid id string or a full
configuration. -/
inductive PluggridRef where
  | idStr (s : String)
  | conf (c : PluggridConfig)
  deriving DecidableEq

def isBinaryFamily (encoding : String) : Bool :=
  encoding = "image" || encoding = "audio" || encoding = "video" || encoding = "binary"

def base64Table : List Char :=
  "ABCDEFGHIJKLMNOPQRSTUVWXYZabcdefghijklmnopqrstuvwxyz0123456789+/".data

def base64Char (n : Nat) : Char := base64Table.getD n 'A'

def base64Chunks : List Nat → List Char
  | [] => []
  | [b0] => [base64Char (b0 / 4), base64Char (b0 % 4 * 16), '=', '=']
  | [b0, b1] =>
    [base64Char (b0 / 4), base64Char (b0 % 4 * 16 + b1 / 16),
      base64Char (b1 % 16 * 4), '=']
  | b0 :: b1 :: b2 :: t =>
    base64Char (b0 / 4) :: base64Char (b0 % 4 * 16 + b1 / 16) ::
      base64Char (b1 % 16 * 4 + b2 / 64) :: base64Char (b2 % 64) :: base64Chunks t

def base64Encode (bytes : List Nat) : String := String.mk (base64Chunks bytes)

/-- The encodeInput local to src/client.ts (lines 68-89): wrap the
base64 payload in a data URI with the supplied or encoding-default MIME
type. -/
def clientEncodeInput (data : List Nat) (encoding : String)
    (mimeType : Option String) : String :=
  let defaultMime :=
    if encoding = "image" then "image/jpeg"
    else if encoding = "audio" then "audio/mpeg"
    else if encoding = "video" then "video/mp4"
    else if encoding = "binary" then "application/octet-stream"
    else "application/octet-stream"
  "data:" ++ orDefault mimeType defaultMime ++ ";base64," ++ base64Encode data

/-- The input encoding the binary branching uses (src/client.ts lines
345-353): the caller value spread over the client default, then an
`||` fallback to the default for a falsy merged value. -/
def effectiveInputEncoding (c : ClientState) (params : Option QueryParamsModel) :
    String :=
  let merged := (params.getD {}).inputEncoding.getD c.defaultInputEncoding
  if merged = "" then c.defaultInputEncoding else merged

/-- The test `queryParams.attachments || queryParams.metadata?.mimeType`
of src/client.ts line 366. -/
def usesMultipart (params : Option QueryParamsModel) : Bool :=
  (params.getD {}).attachmentsPresent || !(strFalsy (params.getD {}).metadataMimeType)

/-- The pluggrid normalization and custom-instruction attachment of
query (src/client.ts lines 389-403): a truthy bare id becomes a
configuration, custom instructions attach to the configuration,
creating an empty-id configuration when none exists. -/
def mergePluggrid (pluggrId : Option PluggridRef)
    (customInstructions : Option String) : Option PluggridConfig :=
  let p0 : Option PluggridConfig :=
    match pluggrId with
    | some (.idStr s) => if s = "" then none else some { id := some s }
    | some (.conf pc) => some pc
    | none => none
  match customInstructions with
  | some ci =>
    if ci = "" then p0
    else some { p0.getD { id := some "" } with customInstructions := some ci }
  | none => p0

/-- The JSON body of a query dispatch: the processed prompt plus the
merged request parameters (src/client.ts lines 344-350, 384-386,
422-428). -/
def queryBodyData (c : ClientState) (processedPrompt : String)
    (pluggrId : Option PluggridRef) (customInstructions : Option String)
    (params : Option QueryParamsModel) : QueryRequestData :=
  let qp := params.getD {}
  { query := processedPrompt
    pluggrid := mergePluggrid pluggrId customInstructions
    inputEncoding := qp.inputEncoding.getD c.defaultInputEncoding
    outputEncoding := qp.outputEncoding.getD c.defaultOutputEncoding
    model :=
      match qp.model with
      | some m => some m
      | none => c.defaultModel }

/-- query up to its dispatch (src/client.ts lines 333-436): prompt
truthiness, binary-versus-string branching, pluggrid merging, and the
POST to /query through request.  A string prompt of any declared
encoding is passed through unchanged; only a byte-backed prompt with a
non-binary-family encoding, or a prompt that is neither string nor
byte-backed, is rejected locally.  The caller params are never routed
through validateParams: the request config carries data, not params. -/
def query (c : ClientState) (prompt : PromptValue)
    (pluggrId : Option PluggridRef) (customInstructions : Option String)
    (params : Option QueryParamsModel) : Except TypedError RequestIntent :=
  if promptTruthy prompt then
    match prompt with
    | .otherTruthy =>
      .error (mkValidationError "Prompt must be a string, Buffer, or ArrayBuffer")
    | .str s =>
      request c
        { method := some "POST", endpoint := "/query",
          body := .queryJson (queryBodyData c s pluggrId customInstructions params) }
    | .bytes _ data =>
      if isBinaryFamily (effectiveInputEncoding c params) then
        if usesMultipart params then
          request c { method := some "POST", endpoint := "/query", body := .multipart }
        else
          request c
            { method := some "POST", endpoint := "/query",
              body := .queryJson (queryBodyData c
                (clientEncodeInput data (effectiveInputEncoding c params)
                  (params.getD {}).metadataMimeType)
                pluggrId customInstructions params) }
      else
        .error (mkValidationError
          ("Cannot use binary data with inputEncoding: " ++
            effectiveInputEncoding c params))
  else .error (mkValidationError "Prompt is required")

/-- RawQueryOptions as the pre-dispatch pipeline reads it. -/
structure RawQueryOptionsModel where
  model : Option String := none
  customInstructions : Option String := none
  inputEncoding : Option String := none
  outputEncoding : Option String := none
  attachmentsPresent : Bool := false
  metadataMimeType : Option String := none
  deriving DecidableEq

/-- rawQuery up to its dispatch (src/client.ts lines 462-563): prompt
truthiness, the model requirement, binary-versus-string branching, and
the POST to /ai/query through request. -/
def rawQuery (c : ClientState) (prompt : PromptValue)
    (options : RawQueryOptionsModel) : Except TypedError RequestIntent :=
  if promptTruthy prompt then
    if strFalsy options.model then
      .error (mkValidationError "Model is required for raw queries")
    else
      let inputEncoding := orDefault options.inputEncoding c.defaultInputEncoding
      let outputEncoding := orDefault options.outputEncoding c.defaultOutputEncoding
      match prompt with
      | .otherTruthy =>
        .error (mkValidationError "Prompt must be a string, Buffer, or ArrayBuffer")
      | .str s =>
        request c
          { method := some "POST", endpoint := "/ai/query",
            body := .rawJson s (options.model.getD "") options.customInstructions
              inputEncoding outputEncoding }
      | .bytes _ data =>
        if isBinaryFamily inputEncoding then
          if options.attachmentsPresent || !(strFalsy options.metadataMimeType) then
            request c { method := some "POST", endpoint := "/ai/query", body := .multipart }
          else
            request c
              { method := some "POST", endpoint := "/ai/query",
                body := .rawJson (clientEncodeInput data inputEncoding options.metadataMimeType)
                  (options.model.getD "") options.customInstructions
                  inputEncoding outputEncoding }
        else
          .error (mkValidationError
            ("Cannot use binary data with inputEncoding: " ++ inputEncoding))
  else .error (mkValidationError "Prompt is required")

/-! ### The standalone encodeInput of src/utils.ts (lines 640-684) -/

/-- A value passed to the utils encodeInput: a JSON-modelled value
(string when the constructor is str), a Buffer, or an ArrayBuffer. -/
inductive EncodeData where
  | jsv (j : Json)
  | buffer (bytes : List Nat)
  | arrayBuffer (bytes : List Nat)

/-- The utils encodeInput throws two kinds of failures: ValidationError
instances and plain Error instances. -/
inductive UtilError where
  | validation (msg : String)
  | generic (msg : String)
  deriving DecidableEq

mutual
/-- ECMAScript String(v) on the modelled JSON values: primitives print
their literals, arrays join their items with commas (null items print
empty), plain objects print the object tag. -/
def jsToStringJson : Json → String
  | .null => "null"
  | .bool true => "true"
  | .bool false => "false"
  | .num n => String.mk (intToChars n)
  | .str s => s
  | .arr es => jsArrJoin es
  | .obj _ => "[object Object]"
def jsArrJoin : JsonList → String
  | .nil => ""
  | .cons x .nil =>
    match x with
    | .null => ""
    | j => jsToStringJson j
  | .cons x (.cons y t) =>
    (match x with
     | .null => ""
     | j => jsToStringJson j) ++ "," ++ jsArrJoin (.cons y t)
end

def natListToJsonList : List Nat → JsonList
  | [] => .nil
  | b :: t => .cons (.num b) (natListToJsonList t)

/-- JSON.stringify of a Buffer: its toJSON form
obj type Buffer with the byte array. -/
def bufferJsonString (bytes : List Nat) : String :=
  stringifyJson (.obj (.cons "type" (.str "Buffer")
    (.cons "data" (.arr (natListToJsonList bytes)) .nil)))

/-- Buffer.toString() is the UTF-8 decoding of the bytes; modelled for
single-byte code points. -/
def bufferUtf8 (bytes : List Nat) : String :=
  String.mk (bytes.map Char.ofNat)

/-- encodeInput (src/utils.ts lines 640-684): text stringifies the
value; json passes strings through and serializes anything else;
binary-family encodings require byte-backed data (base64, no data-URI
wrapping here) and throw a plain Error otherwise; any other encoding
throws a plain Error. -/
def encodeInput (data : EncodeData) (encoding : String)
    (_mimeType : Option String) : Except UtilError String :=
  if encoding = "text" then
    .ok (match data with
      | .jsv j => jsToStringJson j
      | .buffer b => bufferUtf8 b
      | .arrayBuffer _ => "[object ArrayBuffer]")
  else if encoding = "json" then
    .ok (match data with
      | .jsv (.str s) => s
      | .jsv j => stringifyJson j
      | .buffer b => bufferJsonString b
      | .arrayBuffer _ => "{}")
  else if isBinaryFamily encoding then
    match data with
    | .buffer b => .ok (base64Encode b)
    | .arrayBuffer b => .ok (base64Encode b)
    | .jsv _ =>
      .error (.generic ("Invalid data type for " ++ encoding ++
        " encoding. Expected Buffer or ArrayBuffer."))
  else .error (.generic ("Unsupported encoding: " ++ encoding))

/-- The json branch of the full encodeInput agrees with its
restriction to JSON-modelled values used in the round-trip theorems. -/
theorem encodeInput_json_eq (j : Json) :
    encodeInput (.jsv j) "json" none = .ok (encodeInputJson j) := by
  cases j <;> rfl

/-! ### Claim theorems about the facade pipelines -/

/-- A client holding a token, as the scenarios use it. -/
def tokClient : ClientState := mkClient { apiToken := some "tok" }

/-- A client constructed without any token. -/
def noTokenClient : ClientState := mkClient {}

/-- Counterexample to C5 as stated: a plain string payload under the
declared binary-family input encoding image is not rejected; query
dispatches it unchanged in the JSON body, performing a network
attempt.  The string-versus-bytes check of src/client.ts lines 358-377
only fires for non-string prompts. -/
theorem string_payload_with_image_encoding_not_rejected :
    query tokClient (.str "hello") none none
        (some { inputEncoding := some "image" }) =
      .ok { method := "POST", endpoint := "/query", params := none,
            body := .queryJson { query := "hello", pluggrid := none,
                                 inputEncoding := "image", outputEncoding := "text",
                                 model := none },
            authHeader := some "Bearer tok" } ∧
    isBinaryFamily "image" = true :=
  ⟨rfl, rfl⟩

/-- C5 (amended): the payload checks query actually performs.  A prompt
that is neither a string nor byte-backed is rejected with a Validation
error before any dispatch; a byte-backed prompt whose effective
encoding is not binary-family is rejected likewise; a (non-empty)
string prompt is never rejected for its encoding and is dispatched
unchanged as the query field; and the standalone utils encodeInput
rejects non-byte-backed data for binary-family encodings with a plain
Error (not a ValidationError). -/
theorem binary_payload_validation :
    (∀ c pg ci ps, query c .otherTruthy pg ci ps =
        .error (mkValidationError "Prompt must be a string, Buffer, or ArrayBuffer")) ∧
    (∀ c ab data pg ci ps, isBinaryFamily (effectiveInputEncoding c ps) = false →
        query c (.bytes ab data) pg ci ps =
          .error (mkValidationError
            ("Cannot use binary data with inputEncoding: " ++
              effectiveInputEncoding c ps))) ∧
    (∀ c s pg ci ps, s ≠ "" → strFalsy c.apiToken = false →
        query c (.str s) pg ci ps =
          .ok { method := "POST", endpoint := "/query", params := none,
                body := .queryJson (queryBodyData c s pg ci ps),
                authHeader := c.authHeader }) ∧
    (∀ s enc, isBinaryFamily enc = true →
        encodeInput (.jsv (.str s)) enc none =
          .error (.generic ("Invalid data type for " ++ enc ++
            " encoding. Expected Buffer or ArrayBuffer."))) := by
  refine ⟨?_, ?_, ?_, ?_⟩
  · intro c pg ci ps
    simp [query, promptTruthy]
  · intro c ab data pg ci ps h
    simp [query, promptTruthy, h]
  · intro c s pg ci ps hs htok
    simp [query, promptTruthy, hs, request, htok]
  · intro s enc h
    have ht : enc ≠ "text" := fun he => by rw [he] at h; exact absurd h (by decide)
    have hj : enc ≠ "json" := fun he => by rw [he] at h; exact absurd h (by decide)
    simp [encodeInput, ht, hj, h]

/-- Witness for C5: byte-backed data under the text encoding is
rejected with the encoding-mismatch Validation error. -/
theorem binary_payload_validation_witness :
    isBinaryFamily (effectiveInputEncoding tokClient
        (some { inputEncoding := some "text" })) = false ∧
    query tokClient (.bytes false [1, 2]) none none
        (some { inputEncoding := some "text" }) =
      .error (mkValidationError
        ("Cannot use binary data with inputEncoding: " ++
          effectiveInputEncoding tokClient (some { inputEncoding := some "text" }))) :=
  ⟨rfl, binary_payload_validation.2.1 tokClient false [1, 2] none none
    (some { inputEncoding := some "text" }) rfl⟩

/-- Counterexample to C6 as stated: query does not route its parameter
bag through validateParams (it sends data, not params), so an invalid
input-encoding token and a pluggrid lacking an id are both dispatched
to the server without any local Validation error. -/
theorem query_params_not_validated_locally :
    query tokClient (.str "hi") none none (some { inputEncoding := some "bogus" }) =
      .ok { method := "POST", endpoint := "/query", params := none,
            body := .queryJson { query := "hi", pluggrid := none,
                                 inputEncoding := "bogus", outputEncoding := "text",
                                 model := none },
            authHeader := some "Bearer tok" } ∧
    isValidInputEncoding "bogus" = false ∧
    query tokClient (.str "hi") (some (.conf { id := none })) none none =
      .ok { method := "POST", endpoint := "/query", params := none,
            body := .queryJson { query := "hi", pluggrid := some { id := none },
                                 inputEncoding := "text", outputEncoding := "text",
                                 model := none },
            authHeader := some "Bearer tok" } :=
  ⟨rfl, rfl, rfl⟩

theorem validateParams_error_kind (ps : RequestParamsModel) (e : TypedError)
    (h : validateParams ps = .error e) : e.kind = .validation := by
  unfold validateParams validateEncodingTokens at h
  repeat' split at h
  all_goals simp_all [mkValidationError]
  all_goals (cases h; rfl)

/-- C6 (amended): the locally detected validation failures.  An empty
prompt rejects immediately in query; a missing model rejects immediately
in rawQuery; the low-level request method runs validateParams on a
supplied params bag before dispatch, and validateParams rejects a
pluggrid without an id, a non-object pluggrid, and an invalid
input-encoding token.  (query and rawQuery do not pass their option
bags through validateParams; see the counterexample.) -/
theorem local_validation_before_dispatch :
    (∀ c pg ci ps, query c (.str "") pg ci ps =
        .error (mkValidationError "Prompt is required")) ∧
    (∀ c prompt opts, promptTruthy prompt = true → strFalsy opts.model = true →
        rawQuery c prompt opts =
          .error (mkValidationError "Model is required for raw queries")) ∧
    (∀ c cfg ps e, strFalsy c.apiToken = false → cfg.params = some ps →
        validateParams ps = .error e → request c cfg = .error e) ∧
    (∀ pc : PluggridConfig, strFalsy pc.id = true →
        validateParams { pluggrid := some (.conf pc) } =
          .error (mkValidationError "Pluggrid id is required")) ∧
    (validateParams { pluggrid := some .nonObject } =
      .error (mkValidationError "Pluggrid parameter must be an object")) ∧
    (∀ enc, enc ≠ "" → isValidInputEncoding enc = false →
        validateParams { inputEncoding := some enc } =
          .error (mkValidationError ("Invalid input encoding: " ++ enc))) := by
  refine ⟨?_, ?_, ?_, ?_, rfl, ?_⟩
  · intro c pg ci ps
    simp [query, promptTruthy]
  · intro c prompt opts hp hm
    simp [rawQuery, hp, hm]
  · intro c cfg ps e htok hps hval
    simp [request, htok, hps, hval]
  · intro pc hid
    simp [validateParams, hid]
  · intro enc h1 h2
    simp [validateParams, validateEncodingTokens, h1, h2]

/-- Witness for C6: the invalid encoding token bogus is rejected by
validateParams with the naming Validation error. -/
theorem local_validation_before_dispatch_witness :
    (("bogus" : String) ≠ "" ∧ isValidInputEncoding "bogus" = false) ∧
    validateParams { inputEncoding := some "bogus" } =
      .error (mkValidationError ("Invalid input encoding: " ++ "bogus")) :=
  ⟨⟨by decide, by decide⟩,
    local_validation_before_dispatch.2.2.2.2.2 "bogus" (by decide) (by decide)⟩

/-- A successful request dispatch carries the instance Authorization
header unchanged. -/
theorem request_ok_authHeader (c : ClientState) (cfg : RequestConfigModel)
    (i : RequestIntent) (h : request c cfg = .ok i) :
    i.authHeader = c.authHeader := by
  unfold request at h
  by_cases htok : strFalsy c.apiToken = true
  · rw [if_pos htok] at h
    simp at h
  · rw [if_neg htok] at h
    rcases hps : cfg.params with _ | ps
    · rw [hps] at h
      injection h with h2
      rw [← h2]
    · rw [hps] at h
      dsimp only at h
      rcases hval : validateParams ps with e | u
      · rw [hval] at h
        simp at h
      · rw [hval] at h
        injection h with h2
        rw [← h2]

/-- Counterexample to C7 as stated: a client without any credential
rejects query of the empty prompt with a Validation error, not an
Authentication error — the prompt check of query precedes the token
gate of request. -/
theorem no_token_empty_prompt_rejects_validation :
    noTokenClient.apiToken = none ∧
    query noTokenClient (.str "") none none none =
      .error (mkValidationError "Prompt is required") ∧
    (mkValidationError "Prompt is required").kind ≠ ErrorKind.authentication :=
  ⟨rfl, rfl, by decide⟩

/-- C7 (amended): without a (truthy) credential, request rejects with
the Authentication error before any dispatch, and so do query and
rawQuery for inputs passing their own earlier local validation (a
failing input rejects with a Validation error first); every successful
dispatch carries the instance Authorization header, which is
Bearer token when the invariant ties it to a present credential. -/
theorem auth_gate_and_bearer_header :
    (∀ c cfg, strFalsy c.apiToken = true → request c cfg = .error authNotSetError) ∧
    (∀ c s pg ci ps, strFalsy c.apiToken = true → s ≠ "" →
        query c (.str s) pg ci ps = .error authNotSetError) ∧
    (∀ c s opts, strFalsy c.apiToken = true → s ≠ "" → strFalsy opts.model = false →
        rawQuery c (.str s) opts = .error authNotSetError) ∧
    (∀ c cfg i, request c cfg = .ok i → i.authHeader = c.authHeader) ∧
    (∀ c t cfg i, headerInvariant c → c.apiToken = some t →
        request c cfg = .ok i → i.authHeader = some ("Bearer " ++ t)) := by
  refine ⟨?_, ?_, ?_, request_ok_authHeader, ?_⟩
  · intro c cfg htok
    simp [request, htok]
  · intro c s pg ci ps htok hs
    simp [query, promptTruthy, hs, request, htok]
  · intro c s opts htok hs hm
    simp [rawQuery, promptTruthy, hs, hm, request, htok]
  · intro c t cfg i hinv htoken h
    rw [request_ok_authHeader c cfg i h, hinv, htoken]
    rfl

/-- Witness for C7: the tokenless client rejects a well-formed query
with the Authentication error. -/
theorem auth_gate_and_bearer_header_witness :
    (strFalsy noTokenClient.apiToken = true ∧ ("hi" : String) ≠ "") ∧
    query noTokenClient (.str "hi") none none none = .error authNotSetError :=
  ⟨⟨rfl, by decide⟩,
    auth_gate_and_bearer_header.2.1 noTokenClient "hi" none none none rfl (by decide)⟩

/-- Counterexample to C9 as stated: after clearToken, a rawQuery call
missing its model rejects with a Validation error, not an
Authentication error — the model requirement precedes the token gate. -/
theorem cleared_token_missing_model_rejects_validation :
    (clearToken tokClient).apiToken = none ∧
    rawQuery (clearToken tokClient) (.str "hi") {} =
      .error (mkValidationError "Model is required for raw queries") ∧
    (mkValidationError "Model is required for raw queries").kind ≠
      ErrorKind.authentication :=
  ⟨rfl, rfl, by decide⟩

/-- C9 (amended): the constructor, setToken and clearToken keep the
default Authorization header exactly Bearer token when a token is
stored and absent when it is null; after clearToken every request call,
and every query or rawQuery call passing its local input validation,
rejects with the Authentication error until setToken stores a truthy
token again, after which no rejection is an Authentication error. -/
theorem token_lifecycle_header_invariant :
    (∀ opts, headerInvariant (mkClient opts)) ∧
    (∀ c t, headerInvariant (setToken c t)) ∧
    (∀ c, headerInvariant (clearToken c)) ∧
    (∀ c cfg, request (clearToken c) cfg = .error authNotSetError) ∧
    (∀ c s pg ci ps, s ≠ "" →
        query (clearToken c) (.str s) pg ci ps = .error authNotSetError) ∧
    (∀ c s opts, s ≠ "" → strFalsy opts.model = false →
        rawQuery (clearToken c) (.str s) opts = .error authNotSetError) ∧
    (∀ c t cfg e, t ≠ "" → request (setToken c t) cfg = .error e →
        e.kind = ErrorKind.validation) := by
  refine ⟨fun opts => rfl, fun c t => rfl, fun c => rfl, ?_, ?_, ?_, ?_⟩
  · intro c cfg
    have htok : strFalsy (clearToken c).apiToken = true := rfl
    simp [request, htok]
  · intro c s pg ci ps hs
    have htok : strFalsy (clearToken c).apiToken = true := rfl
    simp [query, promptTruthy, hs, request, htok]
  · intro c s opts hs hm
    have htok : strFalsy (clearToken c).apiToken = true := rfl
    simp [rawQuery, promptTruthy, hs, hm, request, htok]
  · intro c t cfg e ht h
    unfold request at h
    rw [if_neg (by simp [setToken, strFalsy, ht])] at h
    rcases hps : cfg.params with _ | ps
    · rw [hps] at h
      simp at h
    · rw [hps] at h
      dsimp only at h
      rcases hval : validateParams ps with e2 | u
      · rw [hval] at h
        injection h with h2
        rw [← h2]
        exact validateParams_error_kind ps e2 hval
      · rw [hval] at h
        simp at h

/-- Witness for C9: a cleared client rejects a well-formed query with
the Authentication error. -/
theorem token_lifecycle_header_invariant_witness :
    (("hi" : String) ≠ "") ∧
    query (clearToken tokClient) (.str "hi") none none none = .error authNotSetError :=
  ⟨by decide,
    token_lifecycle_header_invariant.2.2.2.2.1 tokClient "hi" none none none (by decide)⟩

end PluggedIn
